import Mathlib

/-!
Verification development for the wba-demo repository: a pay-per-crawl testbed
in which a crawler signs HTTP requests (detached JWT artifact plus a
Signature-Input declaration header) and a content server verifies them and
negotiates payment for protected resources.

The TypeScript sources are embedded shallowly: strings are modelled as
`List Char` (the code only ever treats them as character sequences), the
regex-driven parsers of `auth-verifier.ts` are translated into equivalent
deterministic character-list parsers, Node's base64 codec is implemented
concretely, and the Ed25519 primitive inside the `jose` library is modelled
symbolically (a signature is an injective tag of the signing key and message;
forgery is impossible in the model).  Stateful effects (settlement HTTP calls,
thrown exceptions) are made explicit in result records.
-/

set_option autoImplicit false
set_option maxRecDepth 40000

namespace WbaDemo

/-- Strings are modelled as character lists; the sources only treat them as
character sequences, and list induction is what the proofs need. -/
abbrev Chars := List Char

/-! ### Basic character-list helpers

These model the deterministic behaviour of the anchored regexes used in
`auth-verifier.ts` (a greedy `[^c]+` run followed by the literal `c` always
splits at the first occurrence of `c`). -/

/-- Split a list at the first occurrence of `c`: returns the prefix before the
first `c` and the suffix after it, or `none` when `c` does not occur. -/
def splitAtFirst (c : Char) : Chars → Option (Chars × Chars)
  | [] => none
  | x :: xs =>
    if x = c then some ([], xs)
    else
      match splitAtFirst c xs with
      | none => none
      | some (pre, post) => some (x :: pre, post)

/-- Longest prefix on which `p` is false, together with the remaining suffix
(which is empty or starts with a character satisfying `p`). -/
def spanUntil (p : Char → Bool) : Chars → Chars × Chars
  | [] => ([], [])
  | x :: xs =>
    if p x then ([], x :: xs)
    else
      let r := spanUntil p xs
      (x :: r.1, r.2)

/-- JavaScript `String.prototype.split` on a single separator character:
always returns at least one (possibly empty) field. -/
def splitOnChar (c : Char) : Chars → List Chars
  | [] => [[]]
  | x :: xs =>
    if x = c then [] :: splitOnChar c xs
    else
      match splitOnChar c xs with
      | [] => [[x]]
      | h :: t => (x :: h) :: t

/-- JavaScript `toLowerCase`, restricted to the per-character ASCII case map
(all strings the code lowercases are ASCII header/component names). -/
def lowerStr (s : Chars) : Chars := s.map Char.toLower

/-- JavaScript `toUpperCase`, per-character ASCII case map. -/
def upperStr (s : Chars) : Chars := s.map Char.toUpper

/-! ### Decimal rendering and parsing

Models JavaScript template interpolation of a number (`` `${now}` ``) and
`parseInt`. -/

/-- Worker for `natChars`; the fuel is an upper bound on the number of digits
and keeps the recursion structural (so that it reduces inside the kernel). -/
def natCharsAux : Nat → Nat → Chars
  | 0, _ => []
  | fuel + 1, n =>
    if n < 10 then [Char.ofNat (48 + n)]
    else natCharsAux fuel (n / 10) ++ [Char.ofNat (48 + n % 10)]

/-- Decimal digits of a natural number, as produced by JavaScript number
interpolation. -/
def natChars (n : Nat) : Chars := natCharsAux (n + 1) n

/-- Value of a digit string (the accumulator loop underlying `parseInt` on a
pure digit prefix). -/
def digitsToNat (s : Chars) : Nat :=
  s.foldl (fun a c => a * 10 + (c.toNat - 48)) 0

/-- Decimal digit test (character code between 48 and 57), the digit class of
JavaScript number syntax. -/
def isDigitCh (c : Char) : Bool := 48 ≤ c.toNat && c.toNat ≤ 57

/-- Longest leading digit run interpreted as a number; `none` when the string
does not start with a digit (JavaScript `parseInt` yields `NaN`). -/
def parseLeadingDigits (s : Chars) : Option Nat :=
  let ds := s.takeWhile isDigitCh
  if ds = [] then none else some (digitsToNat ds)

/-- JavaScript `parseInt` restricted to the forms that occur in the sources:
an optional sign followed by a digit prefix; `none` models `NaN`. -/
def parseIntJS (s : Chars) : Option Int :=
  match s with
  | [] => none
  | c :: rest =>
    if c = '-' then (parseLeadingDigits rest).map (fun n => -(n : Int))
    else if c = '+' then (parseLeadingDigits rest).map (fun n => (n : Int))
    else (parseLeadingDigits (c :: rest)).map (fun n => (n : Int))

/-! ### Base64

Concrete model of Node.js `Buffer.from(s).toString('base64')` (RFC 4648 with
padding) and of the inverse direction `Buffer.from(b64, 'base64')`.  The
decoder is strict where Node is forgiving; the difference is unobservable in
the embedded code because an undecodable artifact and a decodable-but-garbage
artifact both end in the same `Signature verification failed` result. -/

/-- The RFC 4648 base64 alphabet. -/
def b64Table : Chars :=
  "ABCDEFGHIJKLMNOPQRSTUVWXYZabcdefghijklmnopqrstuvwxyz0123456789+/".data

/-- Character for a 6-bit group. -/
def b64Char (n : Nat) : Char := b64Table.getD n 'A'

/-- Index of a character in the base64 alphabet. -/
def b64ValCore (c : Char) : Chars → Option Nat
  | [] => none
  | x :: xs => if x = c then some 0 else (b64ValCore c xs).map (· + 1)

/-- Inverse of `b64Char` on the alphabet. -/
def b64Val (c : Char) : Option Nat := b64ValCore c b64Table

/-- RFC 4648 base64 encoding of a byte sequence, with `'='` padding. -/
def base64Encode : List Nat → Chars
  | [] => []
  | [a] => [b64Char (a / 4), b64Char (a % 4 * 16), '=', '=']
  | [a, b] => [b64Char (a / 4), b64Char (a % 4 * 16 + b / 16), b64Char (b % 16 * 4), '=']
  | a :: b :: c :: rest =>
    b64Char (a / 4) :: b64Char (a % 4 * 16 + b / 16) :: b64Char (b % 16 * 4 + c / 64) ::
      b64Char (c % 64) :: base64Encode rest

/-- Base64 decoding of a padded base64 string into bytes: quanta of four
characters, with `'='` padding allowed only in the final quantum. -/
def base64Decode : Chars → Option (List Nat)
  | [] => some []
  | c1 :: c2 :: c3 :: c4 :: rest =>
    match b64Val c1, b64Val c2 with
    | some v1, some v2 =>
      if c3 = '=' then
        if c4 = '=' ∧ rest = [] then some [v1 * 4 + v2 / 16] else none
      else
        match b64Val c3 with
        | some v3 =>
          if c4 = '=' then
            if rest = [] then some [v1 * 4 + v2 / 16, v2 % 16 * 16 + v3 / 4] else none
          else
            match b64Val c4, base64Decode rest with
            | some v4, some bs =>
              some ((v1 * 4 + v2 / 16) :: (v2 % 16 * 16 + v3 / 4) :: (v3 % 4 * 64 + v4) :: bs)
            | _, _ => none
        | none => none
    | _, _ => none
  | _ => none

/-- Bytes of a string.  Models Node `Buffer.from(s)` for the strings the code
converts (always ASCII by construction: compact JWS text). -/
def strBytes (s : Chars) : List Nat := s.map Char.toNat

/-- String from bytes, models `buffer.toString('utf8')` on ASCII content. -/
def bytesChars (bs : List Nat) : Chars := bs.map Char.ofNat

/-- Composite model of `Buffer.from(s).toString('base64')`. -/
def base64EncodeStr (s : Chars) : Chars := base64Encode (strBytes s)

/-- Composite model of decoding a base64 text back to a string. -/
def base64DecodeStr (s : Chars) : Option Chars := (base64Decode s).map bytesChars

/-! ### Symbolic model of the jose JWT layer

`Crawler.createSignature` wraps its claims in a JWT signed with the Ed25519
private key (`new SignJWT({...}).setProtectedHeader(...).sign(keyLike)`), and
`AuthVerifier.verifyRequest` checks the artifact with
`jwtVerify(jwt, publicKey)`.  The compact JWS form is modelled as
`b64(header) ++ "." ++ b64(payload) ++ "." ++ b64(signature)` where the
signature is a symbolic Ed25519 tag binding the signing key to the signing
input (perfect-cryptography assumption: a tag can only be produced with the
private key).  `jwtVerify` recomputes the expected tag from the public key's
private counterpart and enforces the token's own `exp` claim exactly as jose
does (`JWTExpired` when `exp <= now`). -/

/-- Symbolic private counterpart of a public key: the single deployed key pair
is `(publicKey, privOf publicKey)`. -/
def privOf (pub : Chars) : Chars := "private-counterpart:".data ++ pub

/-- The static Ed25519 public key loaded by `AuthVerifier` from
`shared/keys/public.key`. -/
def demoPublicKey : Chars := "wba-demo-ed25519-public-key".data

/-- The crawler's private key loaded from `shared/keys/private.key`: the
matching half of the same generated pair. -/
def demoPrivateKey : Chars := privOf demoPublicKey

/-- Symbolic Ed25519 signature of a message with a private key. -/
def symSign (priv msg : Chars) : Chars := priv ++ '|' :: msg

/-- Record serialization of the protected header `{alg, kid}`; field values are
base64-armored so the record text is unambiguous ASCII. -/
def encHeader (alg kid : Chars) : Chars :=
  "alg=".data ++ base64EncodeStr alg ++ ";kid=".data ++ base64EncodeStr kid

/-- Record serialization of a claim list; names and values are base64-armored
so the record text is unambiguous ASCII whatever the claim strings are. -/
def encClaims : List (Chars × Chars) → Chars
  | [] => []
  | kv :: rest =>
    ';' :: base64EncodeStr kv.1 ++ '=' :: base64EncodeStr kv.2 ++ encClaims rest

/-- Record serialization of the JWT payload: the registered `exp`/`iat` claims
(set by `setExpirationTime`/`setIssuedAt`) followed by the private claims. -/
def encPayload (claims : List (Chars × Chars)) (iat exp : Nat) : Chars :=
  "exp=".data ++ natChars exp ++ ";iat=".data ++ natChars iat ++ encClaims claims

/-- Model of `new SignJWT(claims).setProtectedHeader({alg, kid})
.setIssuedAt(iat).setExpirationTime(exp).sign(priv)`: compact JWS text. -/
def signJWT (claims : List (Chars × Chars)) (iat exp : Nat) (alg kid priv : Chars) :
    Chars :=
  let h := base64EncodeStr (encHeader alg kid)
  let p := base64EncodeStr (encPayload claims iat exp)
  let signingInput := h ++ '.' :: p
  signingInput ++ '.' :: base64EncodeStr (symSign priv signingInput)

/-- Reads the `exp` claim out of a decoded payload record; `none` when the
payload carries no `exp` claim. -/
def parseExpField (payload : Chars) : Option Nat :=
  if payload.take 4 = "exp=".data then parseLeadingDigits (payload.drop 4) else none

/-- Model of jose `jwtVerify(jwt, publicKey)` at time `now` (seconds):
parse the three-part compact form, check the signature tag against the
public key, and enforce the token's `exp` claim (expired when `exp ≤ now`).
`true` means the call returns, `false` that it throws. -/
def jwtVerify (jwt pub : Chars) (now : Nat) : Bool :=
  match splitOnChar '.' jwt with
  | [h, p, s] =>
    decide (base64DecodeStr s = some (symSign (privOf pub) (h ++ '.' :: p))) &&
      (match base64DecodeStr p with
       | some payload =>
         match parseExpField payload with
         | some e => decide (now < e)
         | none => true
       | none => false)
  | _ => false

/-! ### URL model

Model of the WHATWG `URL` constructor for the absolute `http(s)` URLs this
testbed exchanges: `scheme://host[:port]path[?query]`.  Default ports are
normalized away exactly as `new URL` does (`url.port` is empty when the port
equals the scheme default); hosts are lowercased.  Userinfo, IPv6 literals,
fragments and dot-segment normalization do not occur in the repository's
traffic and are outside the model (such inputs simply fail to parse). -/

structure UrlObj where
  scheme : Chars
  hostname : Chars
  port : Option Nat
  pathname : Chars
  search : Chars
deriving DecidableEq, Repr

/-- WHATWG default port of a special scheme. -/
def defaultPort (scheme : Chars) : Option Nat :=
  if scheme = "http".data then some 80
  else if scheme = "https".data then some 443
  else if scheme = "ws".data then some 80
  else if scheme = "wss".data then some 443
  else if scheme = "ftp".data then some 21
  else none

/-- Pathname and search of the part after the authority: the path runs to the
first `'?'`; an empty path serializes as `"/"`; a bare `'?'` yields an empty
search, otherwise the search keeps its leading `'?'`. -/
def splitPathSearch (pathRest : Chars) : Chars × Chars :=
  let r := spanUntil (fun c => c = '?') pathRest
  (if r.1 = [] then ['/'] else r.1, if r.2 = ['?'] then [] else r.2)

/-- Authority-and-path parsing of `new URL` after the `//` of an absolute
special-scheme URL. -/
def parseURLAfterSlashes (schemeRaw rest2 : Chars) : Option UrlObj :=
  let scheme := lowerStr schemeRaw
  let auth := spanUntil (fun c => c = '/' || c = '?') rest2
  let hostPort : Chars × Option Chars :=
    match splitAtFirst ':' auth.1 with
    | none => (auth.1, none)
    | some (h, p) => (h, some p)
  if hostPort.1 = [] then none
  else
    let hostname := lowerStr hostPort.1
    let ps := splitPathSearch auth.2
    match hostPort.2 with
    | none => some ⟨scheme, hostname, none, ps.1, ps.2⟩
    | some pstr =>
      if pstr = [] then some ⟨scheme, hostname, none, ps.1, ps.2⟩
      else if pstr.all isDigitCh then
        let p := digitsToNat pstr
        if 65535 < p then none
        else if defaultPort scheme = some p then
          some ⟨scheme, hostname, none, ps.1, ps.2⟩
        else some ⟨scheme, hostname, some p, ps.1, ps.2⟩
      else none

/-- Model of `new URL(s)` for absolute special-scheme URLs; `none` models the
constructor throwing `TypeError: Invalid URL`. -/
def parseURL (s : Chars) : Option UrlObj :=
  match splitAtFirst ':' s with
  | none => none
  | some (schemeRaw, rest) =>
    if schemeRaw = [] then none
    else
      match rest with
      | c1 :: c2 :: rest2 =>
        if c1 = '/' ∧ c2 = '/' then parseURLAfterSlashes schemeRaw rest2 else none
      | _ => none

/-- `url.host`: hostname plus the (non-default) port, as the crawler reads it.
-/
def UrlObj.host (u : UrlObj) : Chars :=
  match u.port with
  | none => u.hostname
  | some p => u.hostname ++ ':' :: natChars p

/-! ### AuthVerifier (`server/src/auth-verifier.ts`) -/

structure RequestLike where
  method : Chars
  url : Chars
  headers : List (Chars × Chars)
deriving DecidableEq, Repr

structure VerificationResult where
  isValid : Bool
  error : Option Chars
  keyId : Option Chars
  algorithm : Option Chars
deriving DecidableEq, Repr

namespace AuthVerifier

/-- `AuthVerifier.extractHeader`: first header whose lowercased name matches
the lowercased lookup name. -/
def extractHeader (headers : List (Chars × Chars)) (name : Chars) : Option Chars :=
  match headers with
  | [] => none
  | (k, v) :: rest =>
    if lowerStr k = lowerStr name then some v else extractHeader rest name

/-- The quote stripping applied to parameter values
(`value.startsWith('"') && value.endsWith('"')` then `value.slice(1, -1)`). -/
def stripQuotes (v : Chars) : Chars :=
  if v.head? = some '"' ∧ v.getLast? = some '"' then (v.drop 1).dropLast else v

/-- Worker for `scanParams` with structural fuel (any bound on the input
length). -/
def scanParamsAux : Nat → Chars → List (Chars × Chars)
  | 0, _ => []
  | _, [] => []
  | fuel + 1, x :: xs =>
    if x = ';' then
      match splitAtFirst '=' xs with
      | none => []
      | some (name, afterEq) =>
        if name = [] then scanParamsAux fuel xs
        else
          let r := spanUntil (fun c => c = ';') afterEq
          if r.1 = [] then scanParamsAux fuel xs
          else (name, r.1) :: scanParamsAux fuel r.2
    else scanParamsAux fuel xs

/-- Scanner equivalent to `paramsStr.matchAll(/;([^=]+)=([^;]+)/g)`: at each
`';'` the greedy anchored pattern either matches deterministically (name up to
the first `'='`, value up to the next `';'` or the end, both non-empty) or the
scan advances one position. -/
def scanParams (l : Chars) : List (Chars × Chars) := scanParamsAux l.length l

/-- Reading a property of the JavaScript object built by repeated
`parameters[name] = value` assignments: the last assignment wins. -/
def getParam (ps : List (Chars × Chars)) (name : Chars) : Option Chars :=
  match ps with
  | [] => none
  | (k, v) :: rest =>
    match getParam rest name with
    | some r => some r
    | none => if k = name then some v else none

structure SignatureInputParsed where
  key : Chars
  components : List Chars
  parameters : List (Chars × Chars)
deriving DecidableEq, Repr

/-- `AuthVerifier.parseSignatureInput`: the anchored regex
`^([^=]+)=\(([^)]+)\)(.*)$` splits at the first `'='` (label, non-empty),
expects `'('`, takes the component text to the first `')'` (non-empty), and
leaves the rest as parameter text; `none` models the thrown
`Invalid Signature-Input format` error.  Components are split on spaces with
all quote characters removed; parameter values are unquoted. -/
def parseSignatureInput (s : Chars) : Option SignatureInputParsed :=
  match splitAtFirst '=' s with
  | none => none
  | some (key, rest) =>
    if key = [] then none
    else
      match rest with
      | [] => none
      | c :: rest2 =>
        if c = '(' then
          match splitAtFirst ')' rest2 with
          | none => none
          | some (compsStr, paramsStr) =>
            if compsStr = [] then none
            else
              some ⟨key,
                (splitOnChar ' ' compsStr).map (fun comp =>
                  comp.filter (fun d => decide (d ≠ '"'))),
                (scanParams paramsStr).map (fun pv => (pv.1, stripQuotes pv.2))⟩
        else none

/-- `AuthVerifier.parseSignature`: the anchored regex `^[^=]+=:([^:]+):$`
splits at the first `'='` (label non-empty), expects `':'`, and requires the
remainder to be a non-empty colon-free payload closed by a final `':'`. -/
def parseSignature (s : Chars) : Option Chars :=
  match splitAtFirst '=' s with
  | none => none
  | some (label, rest) =>
    if label = [] then none
    else
      match rest with
      | [] => none
      | c :: rest2 =>
        if c = ':' then
          let r := spanUntil (fun d => d = ':') rest2
          if r.1 ≠ [] ∧ r.2 = [':'] then some r.1 else none
        else none

/-- The `@authority` rule of `buildSignedData`: drop the port when it is
falsy (`0`) or one of `80`/`443`, regardless of scheme. -/
def verifierAuthority (u : UrlObj) : Chars :=
  match u.port with
  | none => u.hostname
  | some p =>
    if p ≠ 0 ∧ p ≠ 80 ∧ p ≠ 443 then u.hostname ++ ':' :: natChars p
    else u.hostname

/-- Value selected for one covered component by the `switch` in
`buildSignedData`; `none` models `new URL` throwing on an unparsable URL.
The `created` case reads a request header named `created`, falling back to
the empty string. -/
def componentValue (req : RequestLike) (component : Chars) : Option Chars :=
  if component = "@method".data then some (upperStr req.method)
  else if component = "@target-uri".data then some req.url
  else if component = "@authority".data then (parseURL req.url).map verifierAuthority
  else if component = "@scheme".data then (parseURL req.url).map (fun u => u.scheme)
  else if component = "@request-target".data then
    (parseURL req.url).map (fun u => u.pathname ++ u.search)
  else if component = "created".data then
    some ((extractHeader req.headers "created".data).getD [])
  else some ((extractHeader req.headers component).getD [])

/-- The `for` loop of `buildSignedData`: one line per component
(`"name": value` with the name lowercased); `none` when a component value
throws. -/
def buildLines (req : RequestLike) : List Chars → Option (List Chars)
  | [] => some []
  | component :: rest =>
    match componentValue req component with
    | none => none
    | some v =>
      match buildLines req rest with
      | none => none
      | some ls => some (('"' :: lowerStr component ++ "\": ".data ++ v) :: ls)

/-- `AuthVerifier.buildSignedData`: the component lines closed by the
`"@signature-params"` line carrying the raw declaration string, joined with
newlines. -/
def buildSignedData (req : RequestLike) (components : List Chars)
    (signatureInputString : Chars) : Option Chars :=
  match buildLines req components with
  | none => none
  | some lines =>
    some (List.intercalate ['\n'] (lines ++
      ['"' :: "@signature-params".data ++ "\": ".data ++ signatureInputString]))

/-- The declared-expiry test (`if (parameters.expires) { ... expires < now }`):
skipped when the parameter is absent or the empty string, and a `NaN` parse
compares false. -/
def expiredCheck (params : List (Chars × Chars)) (now : Nat) : Bool :=
  match getParam params "expires".data with
  | none => false
  | some e =>
    if e = [] then false
    else
      match parseIntJS e with
      | none => false
      | some n => decide (n < (now : Int))

/-- The crypto tail of `verifyRequest`: decode the artifact text from base64
and run `jwtVerify` against the static public key; any failure surfaces as the
caught inner exception. -/
def jwtVerifyBlob (blob : Chars) (now : Nat) : Bool :=
  match base64DecodeStr blob with
  | none => false
  | some jwt => jwtVerify jwt demoPublicKey now

/-- Result shape of an exception reaching the outer `catch` of
`verifyRequest`. -/
def verificationErrorResult (msg : Chars) : VerificationResult :=
  ⟨false, some ("Verification error: ".data ++ msg), none, none⟩

/-- `AuthVerifier.verifyRequest` at current time `now` (seconds): the full
pipeline — locate the two headers, parse the declaration and the signature,
check the declared expiry, rebuild the signed data (whose value the source
then never uses), and verify the decoded artifact as a JWT with the static
public key.  Total: every exception path of the source is a `catch` that
returns a result. -/
def verifyRequest (req : RequestLike) (now : Nat) : VerificationResult :=
  match extractHeader req.headers "signature-input".data with
  | none => ⟨false, some "Signature-Input header not found".data, none, none⟩
  | some signatureInput =>
    match extractHeader req.headers "signature".data with
    | none => ⟨false, some "Signature header not found".data, none, none⟩
    | some signature =>
      match parseSignatureInput signatureInput with
      | none => verificationErrorResult "Invalid Signature-Input format".data
      | some parsed =>
        match parseSignature signature with
        | none => verificationErrorResult "Invalid Signature format".data
        | some signatureValue =>
          if expiredCheck parsed.parameters now then
            ⟨false, some "Signature expired".data, none, none⟩
          else
            match buildSignedData req parsed.components signatureInput with
            | none => verificationErrorResult "Invalid URL".data
            | some _signedData =>
              if jwtVerifyBlob signatureValue now then
                ⟨true, none, getParam parsed.parameters "keyid".data,
                  some "Ed25519".data⟩
              else
                ⟨false, some "Signature verification failed".data, none, none⟩

end AuthVerifier

/-! ### Crawler (`crawler/crawler/index.ts`) -/

namespace Crawler

/-- The crawler's key id (`this.keyId`). -/
def keyId : Chars := "my-key-id".data

/-- The `Signature-Input` header value built by `createSignature`. -/
def signatureInputValue (now : Nat) : Chars :=
  "sig1=(\"@method\" \"@target-uri\" \"@authority\" \"@scheme\" \"@request-target\" \"created\");created=".data
    ++ natChars now ++ ";keyid=\"my-key-id\"".data

/-- The claims object passed to `new SignJWT({...})`: the five derived
components plus the numeric `created` claim. -/
def composerClaims (method url : Chars) (u : UrlObj) (now : Nat) :
    List (Chars × Chars) :=
  [("@method".data, upperStr method),
   ("@target-uri".data, url),
   ("@authority".data, u.host),
   ("@scheme".data, u.scheme),
   ("@request-target".data, u.pathname ++ u.search),
   ("created".data, natChars now)]

/-- The `signedData` template string assembled by `createSignature` (the
composer's canonical base; its `@authority` line carries `urlObj.host`). -/
def composerSignedData (method url : Chars) (u : UrlObj) (now : Nat) : Chars :=
  "\"@method\": ".data ++ upperStr method ++ '\n' ::
    ("\"@target-uri\": ".data ++ url ++ '\n' ::
      ("\"@authority\": ".data ++ u.host ++ '\n' ::
        ("\"@scheme\": ".data ++ u.scheme ++ '\n' ::
          ("\"@request-target\": ".data ++ u.pathname ++ u.search ++ '\n' ::
            ("\"created\": ".data ++ natChars now)))))

/-- `Crawler.createSignature(method, url)` at time `now`: parse the URL
(`none` models the constructor throwing), sign the claims as a JWT with the
private key (`alg Ed25519`, `kid my-key-id`, `iat now`, `exp now + 300`), and
return the `Signature` and `Signature-Input` header values. -/
def createSignature (method url : Chars) (now : Nat) : Option (Chars × Chars) :=
  match parseURL url with
  | none => none
  | some u =>
    let jwt := signJWT (composerClaims method url u now) now (now + 300)
      "Ed25519".data keyId demoPrivateKey
    some ("sig1=:".data ++ base64EncodeStr jwt ++ [':'], signatureInputValue now)

/-- The headers attached by `makeRequest` to every outgoing request. -/
def requestHeaders (sig sigInput : Chars) : List (Chars × Chars) :=
  [("Signature".data, sig),
   ("Signature-Input".data, sigInput),
   ("Content-Type".data, "application/json".data)]

/-- Payment metadata parsed from response headers by `makeRequest`. -/
structure PaymentInfo where
  required : Bool
  amount : Option Nat
  currency : Option Chars
  description : Option Chars
deriving DecidableEq, Repr

/-- Outcome of the settlement `fetch` to `/payment-process`, as seen by
`handlePayment`: a 2xx response with the parsed body's optional
`data.transactionId`, a non-ok status, or a thrown network error. -/
inductive SettleOutcome where
  | ok (txId : Option Chars)
  | httpError (status : Nat)
  | networkError
deriving DecidableEq, Repr

/-- Body of the settlement request issued by `handlePayment`. -/
structure PaymentCall where
  amount : Nat
  currency : Option Chars
  description : Option Chars
  crawlerId : Chars
deriving DecidableEq, Repr

/-- Explicit-effects result of `handlePayment`: the boolean the method
returns, the settlement requests it issued, and the transaction id it logged
on success. -/
structure HandlePaymentResult where
  granted : Bool
  calls : List PaymentCall
  loggedTx : Option Chars
deriving DecidableEq, Repr

/-- The budget ceiling (`const maxPayment = 50`). -/
def maxPayment : Nat := 50

/-- `Crawler.handlePayment(paymentInfo)` with the settlement outcome made an
explicit argument: no payment required → `true` with no call; affordable
(`amount` truthy and `≤ maxPayment`) → one settlement call, `true` exactly on
a 2xx response (logging `data.transactionId ?? 'unknown'`), `false` on an
error status or a thrown fetch; otherwise → `false` with no call. -/
def handlePayment (info : PaymentInfo) (settle : SettleOutcome) :
    HandlePaymentResult :=
  if !info.required then ⟨true, [], none⟩
  else
    let canPay : Bool :=
      match info.amount with
      | none => false
      | some a => decide (a ≠ 0) && decide (a ≤ maxPayment)
    if canPay then
      let call : PaymentCall :=
        ⟨info.amount.getD 0, info.currency, info.description, keyId⟩
      match settle with
      | .ok tx => ⟨true, [call], some (tx.getD "unknown".data)⟩
      | .httpError _ => ⟨false, [call], none⟩
      | .networkError => ⟨false, [call], none⟩
    else ⟨false, [], none⟩

/-- Outcome of one `makeRequest` inside the crawl loop: a response (ok flag
with payment info and, when a settlement follows, its outcome), a non-ok
status, or a thrown transport error. -/
inductive FetchOutcome where
  | ok (info : PaymentInfo) (settle : SettleOutcome)
  | httpError (status : Nat)
  | transportError
deriving DecidableEq, Repr

/-- Per-pattern record of the crawl loop. -/
inductive PatternResult where
  | accessGranted
  | accessDenied
  | requestFailed (status : Nat)
deriving DecidableEq, Repr

/-- One iteration of the `for` loop of `crawlPatterns`: a thrown transport
error propagates (there is no per-resource `try`); a non-ok response is
logged and the loop continues; an ok response goes through `handlePayment`. -/
def processPattern (f : FetchOutcome) : Except Unit PatternResult :=
  match f with
  | .transportError => .error ()
  | .httpError s => .ok (.requestFailed s)
  | .ok info settle =>
    .ok (if (handlePayment info settle).granted then .accessGranted
         else .accessDenied)

/-- The `for` loop of `crawlPatterns`: the first propagating exception ends
the loop (remaining patterns are not processed); the boolean records whether
the run was aborted by the outer `catch`. -/
def crawlLoop : List FetchOutcome → List PatternResult × Bool
  | [] => ([], false)
  | f :: rest =>
    match processPattern f with
    | .error _ => ([], true)
    | .ok r =>
      let t := crawlLoop rest
      (r :: t.1, t.2)

/-- `Crawler.crawlPatterns`: fetch the root listing first (a thrown error or
a non-ok root response aborts via `throw new Error`), then run the loop; the
single outer `catch` only logs. -/
def crawlPatterns (root : FetchOutcome) (patterns : List FetchOutcome) :
    List PatternResult × Bool :=
  match root with
  | .transportError => ([], true)
  | .httpError _ => ([], true)
  | .ok _ _ => crawlLoop patterns

end Crawler

/-! ### Payment endpoint (`server/src/index.ts`, `app.post('/payment-process')`) -/

namespace PaymentServer

/-- Parsed settlement request body. -/
structure PaymentRequestBody where
  amount : Option Nat
  currency : Option Chars
  description : Option Chars
  crawlerId : Option Chars
deriving DecidableEq, Repr

/-- Response of the settlement endpoint. -/
structure PaymentProcessResponse where
  status : Nat
  success : Bool
  transactionId : Option Chars
  amount : Option Nat
  currency : Option Chars
deriving DecidableEq, Repr

/-- `app.post('/payment-process')` at millisecond time `nowMs`: an unparsable
JSON body throws into the `catch` (500); otherwise the simulated settlement
succeeds with `transactionId = 'tx_' + Date.now()` and echoes
amount/currency. -/
def paymentProcess (body : Option PaymentRequestBody) (nowMs : Nat) :
    PaymentProcessResponse :=
  match body with
  | none => ⟨500, false, none, none, none⟩
  | some b => ⟨200, true, some ("tx_".data ++ natChars nowMs), b.amount, b.currency⟩

end PaymentServer

/-- The parameter list declared by the composer. -/
def composerParams (now : Nat) : List (Chars × Chars) :=
  [("created".data, natChars now), ("keyid".data, "my-key-id".data)]

/-- The component list declared by the composer. -/
def composerComponents : List Chars :=
  ["@method".data, "@target-uri".data, "@authority".data, "@scheme".data,
   "@request-target".data, "created".data]

open AuthVerifier

theorem natCharsAux_irrel (fuel1 : Nat) :
    ∀ fuel2 n, n < fuel1 → n < fuel2 → natCharsAux fuel1 n = natCharsAux fuel2 n := by
  induction fuel1 with
  | zero => intro fuel2 n h1 _; omega
  | succ f1 ih =>
    intro fuel2 n h1 h2
    match fuel2 with
    | 0 => omega
    | f2 + 1 =>
      rw [natCharsAux, natCharsAux]
      by_cases hn : n < 10
      · rw [if_pos hn, if_pos hn]
      · rw [if_neg hn, if_neg hn]
        have hdiv : n / 10 < n := Nat.div_lt_self (by omega) (by norm_num)
        rw [ih f2 (n / 10) (by omega) (by omega)]

/-- The defining recursion of `natChars`. -/
theorem natChars_eq (n : Nat) :
    natChars n = if n < 10 then [Char.ofNat (48 + n)]
      else natChars (n / 10) ++ [Char.ofNat (48 + n % 10)] := by
  rw [natChars, natCharsAux]
  by_cases hn : n < 10
  · rw [if_pos hn, if_pos hn]
  · rw [if_neg hn, if_neg hn, natChars]
    have hdiv : n / 10 < n := Nat.div_lt_self (by omega) (by norm_num)
    rw [natCharsAux_irrel n (n / 10 + 1) (n / 10) (by omega) (by omega)]

/-! ### Lemmas about the helpers -/

theorem splitAtFirst_append (c : Char) (a b : Chars) (ha : c ∉ a) :
    splitAtFirst c (a ++ c :: b) = some (a, b) := by
  induction a with
  | nil => simp [splitAtFirst]
  | cons x xs ih =>
    simp only [List.mem_cons, not_or] at ha
    simp [splitAtFirst, Ne.symm ha.1, ih ha.2]

theorem splitAtFirst_length {c : Char} {l a b : Chars}
    (h : splitAtFirst c l = some (a, b)) : b.length < l.length := by
  induction l generalizing a b with
  | nil => simp [splitAtFirst] at h
  | cons x xs ih =>
    simp only [splitAtFirst] at h
    by_cases hx : x = c
    · rw [if_pos hx] at h
      simp only [Option.some.injEq, Prod.mk.injEq] at h
      rw [← h.2]
      simp
    · rw [if_neg hx] at h
      match hs : splitAtFirst c xs with
      | none => rw [hs] at h; simp at h
      | some (p, q) =>
        rw [hs] at h
        simp only [Option.some.injEq, Prod.mk.injEq] at h
        have hq := ih hs
        rw [← h.2]
        simp only [List.length_cons]
        omega

theorem spanUntil_length (p : Char → Bool) (l : Chars) :
    (spanUntil p l).2.length ≤ l.length := by
  induction l with
  | nil => simp [spanUntil]
  | cons x xs ih =>
    simp only [spanUntil]
    by_cases hx : p x
    · simp [hx]
    · simp only [hx, if_false]
      exact Nat.le_succ_of_le ih

theorem spanUntil_append (p : Char → Bool) (a b : Chars)
    (ha : ∀ x ∈ a, p x = false) (hb : b = [] ∨ ∃ y ys, b = y :: ys ∧ p y = true) :
    spanUntil p (a ++ b) = (a, b) := by
  induction a with
  | nil =>
    rcases hb with h | ⟨y, ys, rfl, hy⟩
    · simp [h, spanUntil]
    · simp [spanUntil, hy]
  | cons x xs ih =>
    have hx := ha x (by simp)
    have hrec := ih (fun z hz => ha z (by simp [hz]))
    simp only [List.cons_append, spanUntil, hx, Bool.false_eq_true, if_false,
      List.append_eq] at hrec ⊢
    rw [hrec]

theorem splitOnChar_not_mem (c : Char) (a : Chars) (ha : c ∉ a) :
    splitOnChar c a = [a] := by
  induction a with
  | nil => simp [splitOnChar]
  | cons x xs ih =>
    simp only [List.mem_cons, not_or] at ha
    simp [splitOnChar, Ne.symm ha.1, ih ha.2]

theorem splitOnChar_append (c : Char) (a rest : Chars) (ha : c ∉ a) :
    splitOnChar c (a ++ c :: rest) = a :: splitOnChar c rest := by
  induction a with
  | nil => simp [splitOnChar]
  | cons x xs ih =>
    simp only [List.mem_cons, not_or] at ha
    have hrec := ih ha.2
    simp only [List.cons_append, splitOnChar, List.append_eq] at hrec ⊢
    rw [if_neg (Ne.symm ha.1), hrec]

theorem takeWhile_append_of (p : Char → Bool) (a rest : Chars)
    (ha : ∀ x ∈ a, p x = true)
    (hrest : rest = [] ∨ ∃ y ys, rest = y :: ys ∧ p y = false) :
    (a ++ rest).takeWhile p = a := by
  induction a with
  | nil =>
    rcases hrest with h | ⟨y, ys, rfl, hy⟩
    · simp [h]
    · simp [List.takeWhile, hy]
  | cons x xs ih =>
    have hx := ha x (by simp)
    have hrec := ih (fun z hz => ha z (by simp [hz]))
    simp only [List.cons_append, List.takeWhile, hx, List.append_eq] at hrec ⊢
    rw [hrec]

theorem digitsToNat_append_single (a : Chars) (d : Char) :
    digitsToNat (a ++ [d]) = digitsToNat a * 10 + (d.toNat - 48) := by
  simp [digitsToNat]

theorem digitChar_spec (d : Nat) (hd : d < 10) :
    isDigitCh (Char.ofNat (48 + d)) = true ∧ (Char.ofNat (48 + d)).toNat = 48 + d := by
  interval_cases d <;> exact ⟨by decide, by decide⟩

theorem natChars_all_digit (n : Nat) : ∀ c ∈ natChars n, isDigitCh c = true := by
  induction n using Nat.strong_induction_on with
  | _ n ih =>
    rw [natChars_eq]
    by_cases h : n < 10
    · rw [if_pos h]
      intro c hc
      simp only [List.mem_singleton] at hc
      rw [hc]
      exact (digitChar_spec n h).1
    · rw [if_neg h]
      intro c hc
      rcases List.mem_append.1 hc with h1 | h2
      · exact ih (n / 10) (Nat.div_lt_self (by omega) (by norm_num)) c h1
      · simp only [List.mem_singleton] at h2
        rw [h2]
        exact (digitChar_spec (n % 10) (Nat.mod_lt n (by norm_num))).1

theorem natChars_ne_nil (n : Nat) : natChars n ≠ [] := by
  rw [natChars_eq]
  by_cases h : n < 10
  · rw [if_pos h]; simp
  · rw [if_neg h]; simp

theorem digitsToNat_natChars (n : Nat) : digitsToNat (natChars n) = n := by
  induction n using Nat.strong_induction_on with
  | _ n ih =>
    rw [natChars_eq]
    by_cases h : n < 10
    · rw [if_pos h]
      have := (digitChar_spec n h).2
      simp [digitsToNat, this]
    · rw [if_neg h, digitsToNat_append_single,
        ih (n / 10) (Nat.div_lt_self (by omega) (by norm_num)),
        (digitChar_spec (n % 10) (Nat.mod_lt n (by norm_num))).2]
      omega

theorem natChars_injective {m n : Nat} (h : natChars m = natChars n) : m = n := by
  have := digitsToNat_natChars m
  rw [h, digitsToNat_natChars] at this
  omega

/-- A digit character is none of the delimiter characters the parsers split on. -/
theorem isDigit_excludes (c : Char) (h : isDigitCh c = true) :
    c ≠ ';' ∧ c ≠ '=' ∧ c ≠ ':' ∧ c ≠ '"' ∧ c ≠ '.' ∧ c ≠ '-' ∧ c ≠ '+' ∧ c.toNat < 128 := by
  simp only [isDigitCh, Bool.and_eq_true, decide_eq_true_eq] at h
  refine ⟨?_, ?_, ?_, ?_, ?_, ?_, ?_, by omega⟩ <;>
    · intro hc
      subst hc
      simp at h

theorem parseLeadingDigits_natChars_append (n : Nat) (rest : Chars)
    (hrest : rest = [] ∨ ∃ y ys, rest = y :: ys ∧ isDigitCh y = false) :
    parseLeadingDigits (natChars n ++ rest) = some n := by
  rw [parseLeadingDigits]
  rw [takeWhile_append_of isDigitCh (natChars n) rest (natChars_all_digit n) hrest]
  simp [natChars_ne_nil n, digitsToNat_natChars n]

theorem parseIntJS_natChars_append (n : Nat) (rest : Chars)
    (hrest : rest = [] ∨ ∃ y ys, rest = y :: ys ∧ isDigitCh y = false) :
    parseIntJS (natChars n ++ rest) = some (n : Int) := by
  have hd := natChars_ne_nil n
  match hn : natChars n with
  | [] => exact absurd hn hd
  | c :: cs =>
    have hdig : isDigitCh c = true := by
      have := natChars_all_digit n
      rw [hn] at this
      exact this c (by simp)
    have hex := isDigit_excludes c hdig
    have : parseLeadingDigits (natChars n ++ rest) = some n :=
      parseLeadingDigits_natChars_append n rest hrest
    rw [hn] at this
    simp only [hn, List.cons_append, parseIntJS, hex.2.2.2.2.2.1, hex.2.2.2.2.2.2.1,
      if_false]
    rw [← List.cons_append, this]
    rfl

theorem b64Val_b64Char (n : Nat) (h : n < 64) : b64Val (b64Char n) = some n := by
  revert h
  revert n
  decide

theorem b64Char_mem_table (n : Nat) : b64Char n ∈ b64Table := by
  rw [b64Char, List.getD_eq_getElem?_getD]
  by_cases hlen : n < b64Table.length
  · rw [List.getElem?_eq_getElem hlen]
    exact List.getElem_mem hlen
  · rw [List.getElem?_eq_none (by omega)]
    decide

theorem b64Table_ascii : ∀ c ∈ b64Table, c ≠ ':' ∧ c ≠ '.' ∧ c.toNat < 128 := by
  decide

theorem base64Encode_mem (bs : List Nat) :
    ∀ c ∈ base64Encode bs, c ∈ b64Table ∨ c = '=' := by
  induction bs using base64Encode.induct with
  | case1 => simp [base64Encode]
  | case2 a =>
    intro c hc
    simp only [base64Encode, List.mem_cons, List.not_mem_nil, or_false] at hc
    rcases hc with rfl | rfl | rfl | rfl
    · exact Or.inl (b64Char_mem_table _)
    · exact Or.inl (b64Char_mem_table _)
    · exact Or.inr rfl
    · exact Or.inr rfl
  | case3 a b =>
    intro c hc
    simp only [base64Encode, List.mem_cons, List.not_mem_nil, or_false] at hc
    rcases hc with rfl | rfl | rfl | rfl
    · exact Or.inl (b64Char_mem_table _)
    · exact Or.inl (b64Char_mem_table _)
    · exact Or.inl (b64Char_mem_table _)
    · exact Or.inr rfl
  | case4 a b c rest ih =>
    intro d hd
    simp only [base64Encode, List.mem_cons] at hd
    rcases hd with rfl | rfl | rfl | rfl | hd
    · exact Or.inl (b64Char_mem_table _)
    · exact Or.inl (b64Char_mem_table _)
    · exact Or.inl (b64Char_mem_table _)
    · exact Or.inl (b64Char_mem_table _)
    · exact ih d hd

theorem base64Encode_no_colon (bs : List Nat) :
    ∀ c ∈ base64Encode bs, c ≠ ':' ∧ c ≠ '.' ∧ c.toNat < 128 := by
  intro c hc
  rcases base64Encode_mem bs c hc with h | h
  · exact b64Table_ascii c h
  · subst h
    exact ⟨by decide, by decide, by decide⟩

theorem base64Encode_ne_nil (bs : List Nat) (h : bs ≠ []) : base64Encode bs ≠ [] := by
  match bs with
  | [] => exact absurd rfl h
  | [a] => simp [base64Encode]
  | [a, b] => simp [base64Encode]
  | a :: b :: c :: rest => simp [base64Encode]

theorem b64Char_ne_pad (n : Nat) : b64Char n ≠ '=' := by
  intro heq
  have hm := b64Char_mem_table n
  rw [heq] at hm
  exact absurd hm (by decide)

theorem base64Decode_base64Encode (bs : List Nat) (hb : ∀ b ∈ bs, b < 256) :
    base64Decode (base64Encode bs) = some bs := by
  induction bs using base64Encode.induct with
  | case1 => simp [base64Encode, base64Decode]
  | case2 a =>
    have ha := hb a (by simp)
    have e1 : b64Val (b64Char (a / 4)) = some (a / 4) := b64Val_b64Char _ (by omega)
    have e2 : b64Val (b64Char (a % 4 * 16)) = some (a % 4 * 16) := b64Val_b64Char _ (by omega)
    simp only [base64Encode, base64Decode, e1, e2, if_pos rfl, and_self, if_true]
    have harith : a / 4 * 4 + a % 4 * 16 / 16 = a := by omega
    rw [harith]
  | case3 a b =>
    have ha := hb a (by simp)
    have hbb := hb b (by simp)
    have e1 : b64Val (b64Char (a / 4)) = some (a / 4) := b64Val_b64Char _ (by omega)
    have e2 : b64Val (b64Char (a % 4 * 16 + b / 16)) = some (a % 4 * 16 + b / 16) :=
      b64Val_b64Char _ (by omega)
    have e3 : b64Val (b64Char (b % 16 * 4)) = some (b % 16 * 4) :=
      b64Val_b64Char _ (by omega)
    have hne : b64Char (b % 16 * 4) ≠ '=' := b64Char_ne_pad _
    simp only [base64Encode, base64Decode, e1, e2, e3, hne, if_false, if_pos rfl,
      if_true]
    have h1 : a / 4 * 4 + (a % 4 * 16 + b / 16) / 16 = a := by omega
    have h2 : (a % 4 * 16 + b / 16) % 16 * 16 + b % 16 * 4 / 4 = b := by omega
    rw [h1, h2]
  | case4 a b c rest ih =>
    have ha := hb a (by simp)
    have hbb := hb b (by simp)
    have hcc := hb c (by simp)
    have hrest : ∀ x ∈ rest, x < 256 := fun x hx => hb x (by simp [hx])
    have hdec := ih hrest
    have e1 : b64Val (b64Char (a / 4)) = some (a / 4) := b64Val_b64Char _ (by omega)
    have e2 : b64Val (b64Char (a % 4 * 16 + b / 16)) = some (a % 4 * 16 + b / 16) :=
      b64Val_b64Char _ (by omega)
    have e3 : b64Val (b64Char (b % 16 * 4 + c / 64)) = some (b % 16 * 4 + c / 64) :=
      b64Val_b64Char _ (by omega)
    have e4 : b64Val (b64Char (c % 64)) = some (c % 64) := b64Val_b64Char _ (by omega)
    have hne3 : b64Char (b % 16 * 4 + c / 64) ≠ '=' := b64Char_ne_pad _
    have hne4 : b64Char (c % 64) ≠ '=' := b64Char_ne_pad _
    simp only [base64Encode, base64Decode, e1, e2, e3, e4, hne3, hne4, if_false, hdec]
    have h1 : a / 4 * 4 + (a % 4 * 16 + b / 16) / 16 = a := by omega
    have h2 : (a % 4 * 16 + b / 16) % 16 * 16 + (b % 16 * 4 + c / 64) / 4 = b := by omega
    have h3 : (b % 16 * 4 + c / 64) % 4 * 64 + c % 64 = c := by omega
    rw [h1, h2, h3]

theorem bytesChars_strBytes (s : Chars) : bytesChars (strBytes s) = s := by
  simp only [bytesChars, strBytes, List.map_map]
  have : (Char.ofNat ∘ Char.toNat) = id := by
    funext c
    exact Char.ofNat_toNat c
  rw [this, List.map_id]

theorem base64DecodeStr_encodeStr (s : Chars) (hs : ∀ c ∈ s, c.toNat < 256) :
    base64DecodeStr (base64EncodeStr s) = some s := by
  have hb : ∀ b ∈ strBytes s, b < 256 := by
    intro b hbm
    simp only [strBytes, List.mem_map] at hbm
    obtain ⟨c, hc, rfl⟩ := hbm
    exact hs c hc
  rw [base64DecodeStr, base64EncodeStr, base64Decode_base64Encode (strBytes s) hb]
  simp [bytesChars_strBytes]

theorem signJWT_chars (claims : List (Chars × Chars)) (iat exp : Nat)
    (alg kid priv : Chars) :
    ∀ c ∈ signJWT claims iat exp alg kid priv, c ∈ b64Table ∨ c = '=' ∨ c = '.' := by
  intro c hc
  simp only [signJWT] at hc
  rcases List.mem_append.1 hc with h1 | h2
  · rcases List.mem_append.1 h1 with h3 | h4
    · rcases base64Encode_mem _ c h3 with h | h
      · exact Or.inl h
      · exact Or.inr (Or.inl h)
    · rcases List.mem_cons.1 h4 with rfl | h5
      · exact Or.inr (Or.inr rfl)
      · rcases base64Encode_mem _ c h5 with h | h
        · exact Or.inl h
        · exact Or.inr (Or.inl h)
  · rcases List.mem_cons.1 h2 with rfl | h6
    · exact Or.inr (Or.inr rfl)
    · rcases base64Encode_mem _ c h6 with h | h
      · exact Or.inl h
      · exact Or.inr (Or.inl h)

theorem signJWT_ascii (claims : List (Chars × Chars)) (iat exp : Nat)
    (alg kid priv : Chars) :
    ∀ c ∈ signJWT claims iat exp alg kid priv, c.toNat < 256 := by
  intro c hc
  rcases signJWT_chars claims iat exp alg kid priv c hc with h | h | h
  · have := (b64Table_ascii c h).2.2
    omega
  · rw [h]; decide
  · rw [h]; decide

theorem encClaims_ascii (claims : List (Chars × Chars)) :
    ∀ c ∈ encClaims claims, c.toNat < 256 := by
  induction claims with
  | nil => simp [encClaims]
  | cons kv rest ih =>
    intro c hc
    rw [encClaims] at hc
    rcases List.mem_append.1 hc with h1 | h2
    · rcases List.mem_cons.1 h1 with rfl | ha
      · decide
      · rcases List.mem_append.1 ha with hb | hb2
        · have := (base64Encode_no_colon _ c hb).2.2
          omega
        · rcases List.mem_cons.1 hb2 with rfl | hcc
          · decide
          · have := (base64Encode_no_colon _ c hcc).2.2
            omega
    · exact ih c h2

theorem natChars_ascii (n : Nat) : ∀ c ∈ natChars n, c.toNat < 256 := by
  intro c hc
  have := (isDigit_excludes c (natChars_all_digit n c hc)).2.2.2.2.2.2.2
  omega

theorem encPayload_ascii (claims : List (Chars × Chars)) (iat exp : Nat) :
    ∀ c ∈ encPayload claims iat exp, c.toNat < 256 := by
  have hlit1 : ∀ c ∈ "exp=".data, c.toNat < 256 := by decide
  have hlit2 : ∀ c ∈ ";iat=".data, c.toNat < 256 := by decide
  intro c hc
  simp only [encPayload, List.append_assoc, List.mem_append] at hc
  rcases hc with h | h | h | h | h
  · exact hlit1 c h
  · exact natChars_ascii exp c h
  · exact hlit2 c h
  · exact natChars_ascii iat c h
  · exact encClaims_ascii claims c h

theorem symSign_priv_ascii (msg : Chars) (hmsg : ∀ c ∈ msg, c.toNat < 256) :
    ∀ c ∈ symSign demoPrivateKey msg, c.toNat < 256 := by
  have hkey : ∀ c ∈ demoPrivateKey, c.toNat < 256 := by decide
  intro c hc
  simp only [symSign, List.mem_append, List.mem_cons] at hc
  rcases hc with h | rfl | h
  · exact hkey c h
  · decide
  · exact hmsg c h

theorem base64EncodeStr_no_dot (s : Chars) : '.' ∉ base64EncodeStr s := by
  intro h
  exact absurd rfl (base64Encode_no_colon _ _ h).2.1

/-- The crypto round trip: a compact JWS produced by `signJWT` with the demo
private key passes `jwtVerify` against the demo public key exactly when the
token's `exp` claim is still in the future. -/
theorem jwtVerify_signJWT (claims : List (Chars × Chars)) (iat exp : Nat)
    (alg kid : Chars) (now : Nat) :
    jwtVerify (signJWT claims iat exp alg kid demoPrivateKey) demoPublicKey now =
      decide (now < exp) := by
  have hsplit : splitOnChar '.' (signJWT claims iat exp alg kid demoPrivateKey) =
      [base64EncodeStr (encHeader alg kid),
       base64EncodeStr (encPayload claims iat exp),
       base64EncodeStr (symSign demoPrivateKey
         (base64EncodeStr (encHeader alg kid) ++ '.' ::
           base64EncodeStr (encPayload claims iat exp)))] := by
    simp only [signJWT]
    rw [List.append_assoc, List.cons_append]
    rw [splitOnChar_append _ _ _ (base64EncodeStr_no_dot _)]
    rw [splitOnChar_append _ _ _ (base64EncodeStr_no_dot _)]
    rw [splitOnChar_not_mem _ _ (base64EncodeStr_no_dot _)]
  have hsigInput_ascii : ∀ c ∈ base64EncodeStr (encHeader alg kid) ++ '.' ::
      base64EncodeStr (encPayload claims iat exp), c.toNat < 256 := by
    intro c hc
    rcases List.mem_append.1 hc with h | h
    · have := (base64Encode_no_colon _ c h).2.2
      omega
    · rcases List.mem_cons.1 h with rfl | h2
      · decide
      · have := (base64Encode_no_colon _ c h2).2.2
        omega
  have hsig : base64DecodeStr (base64EncodeStr (symSign demoPrivateKey
      (base64EncodeStr (encHeader alg kid) ++ '.' ::
        base64EncodeStr (encPayload claims iat exp)))) =
      some (symSign demoPrivateKey
      (base64EncodeStr (encHeader alg kid) ++ '.' ::
        base64EncodeStr (encPayload claims iat exp))) :=
    base64DecodeStr_encodeStr _ (symSign_priv_ascii _ hsigInput_ascii)
  have hpayload : base64DecodeStr (base64EncodeStr (encPayload claims iat exp)) =
      some (encPayload claims iat exp) :=
    base64DecodeStr_encodeStr _ (encPayload_ascii claims iat exp)
  have hexp : parseExpField (encPayload claims iat exp) = some exp := by
    rw [parseExpField, encPayload]
    have htake : (("exp=".data ++ natChars exp ++ ";iat=".data ++ natChars iat ++
        encClaims claims).take 4) = "exp=".data := by
      rw [show ("exp=".data ++ natChars exp ++ ";iat=".data ++ natChars iat ++
        encClaims claims) = "exp=".data ++ (natChars exp ++ ";iat=".data ++
        natChars iat ++ encClaims claims) by simp]
      rw [show (4 : Nat) = ("exp=".data).length from rfl]
      exact List.take_left _ _
    have hdrop : (("exp=".data ++ natChars exp ++ ";iat=".data ++ natChars iat ++
        encClaims claims).drop 4) = natChars exp ++ (";iat=".data ++
        natChars iat ++ encClaims claims) := by
      rw [show ("exp=".data ++ natChars exp ++ ";iat=".data ++ natChars iat ++
        encClaims claims) = "exp=".data ++ (natChars exp ++ (";iat=".data ++
        natChars iat ++ encClaims claims)) by simp]
      rw [show (4 : Nat) = ("exp=".data).length from rfl]
      exact List.drop_left _ _
    rw [htake, if_pos rfl, hdrop]
    exact parseLeadingDigits_natChars_append exp _
      (Or.inr ⟨';', "iat=".data ++ natChars iat ++ encClaims claims, rfl, by decide⟩)
  have hprivOf : privOf demoPublicKey = demoPrivateKey := rfl
  rw [jwtVerify, hsplit]
  simp [hprivOf, hsig, hpayload, hexp]

theorem scanParamsAux_irrel (fuel1 : Nat) :
    ∀ fuel2 l, l.length ≤ fuel1 → l.length ≤ fuel2 →
      scanParamsAux fuel1 l = scanParamsAux fuel2 l := by
  induction fuel1 with
  | zero =>
    intro fuel2 l h1 _
    have : l = [] := List.length_eq_zero.1 (by omega)
    subst this
    match fuel2 with
    | 0 => rfl
    | f2 + 1 => rfl
  | succ f1 ih =>
    intro fuel2 l h1 h2
    match l with
    | [] =>
      match fuel2 with
      | 0 => rfl
      | f2 + 1 => rfl
    | x :: xs =>
      match fuel2 with
      | 0 => simp at h2
      | f2 + 1 =>
        simp only [List.length_cons] at h1 h2
        rw [scanParamsAux, scanParamsAux]
        by_cases hx : x = ';'
        · rw [if_pos hx, if_pos hx]
          match hsp : splitAtFirst '=' xs with
          | none => rfl
          | some (name, afterEq) =>
            dsimp only
            have hlen := splitAtFirst_length hsp
            by_cases hname : name = []
            · rw [if_pos hname, if_pos hname]
              exact ih f2 xs (by omega) (by omega)
            · rw [if_neg hname, if_neg hname]
              have hspan := spanUntil_length (fun c => c = ';') afterEq
              by_cases hval : (spanUntil (fun c => c = ';') afterEq).1 = []
              · rw [if_pos hval, if_pos hval]
                exact ih f2 xs (by omega) (by omega)
              · rw [if_neg hval, if_neg hval]
                rw [ih f2 (spanUntil (fun c => c = ';') afterEq).2 (by omega) (by omega)]
        · rw [if_neg hx, if_neg hx]
          exact ih f2 xs (by omega) (by omega)

theorem scanParamsAux_eq (fuel : Nat) (l : Chars) (h : l.length ≤ fuel) :
    scanParamsAux fuel l = scanParams l :=
  scanParamsAux_irrel fuel l.length l h (le_refl _)

theorem scanParamsAux_succ_cons (fuel : Nat) (x : Char) (xs : Chars) :
    scanParamsAux (fuel + 1) (x :: xs) =
      if x = ';' then
        match splitAtFirst '=' xs with
        | none => []
        | some (name, afterEq) =>
          if name = [] then scanParamsAux fuel xs
          else
            let r := spanUntil (fun c => c = ';') afterEq
            if r.1 = [] then scanParamsAux fuel xs
            else (name, r.1) :: scanParamsAux fuel r.2
      else scanParamsAux fuel xs := rfl

theorem scanParams_cons_param (name value rest : Chars)
    (hname_ne : name ≠ []) (hname_eq : '=' ∉ name)
    (hval_ne : value ≠ []) (hval_semi : ∀ c ∈ value, c ≠ ';')
    (hrest : rest = [] ∨ ∃ ys, rest = ';' :: ys) :
    scanParams (';' :: (name ++ '=' :: (value ++ rest))) =
      (name, value) :: scanParams rest := by
  have hspan : spanUntil (fun c => c = ';') (value ++ rest) = (value, rest) := by
    apply spanUntil_append
    · intro x hx
      simp [hval_semi x hx]
    · rcases hrest with rfl | ⟨ys, rfl⟩
      · exact Or.inl rfl
      · exact Or.inr ⟨';', ys, rfl, by simp⟩
  rw [scanParams]
  rw [show (';' :: (name ++ '=' :: (value ++ rest))).length =
    (name ++ '=' :: (value ++ rest)).length + 1 from rfl]
  rw [scanParamsAux_succ_cons, if_pos rfl,
    splitAtFirst_append '=' name (value ++ rest) hname_eq]
  dsimp only
  rw [if_neg hname_ne, hspan]
  dsimp only
  rw [if_neg hval_ne]
  have hlen : rest.length ≤ (name ++ '=' :: (value ++ rest)).length := by
    simp only [List.length_append, List.length_cons]
    omega
  rw [scanParamsAux_eq _ _ hlen]

theorem natChars_head_digit (n : Nat) :
    ∃ c cs, natChars n = c :: cs ∧ isDigitCh c = true := by
  match h : natChars n with
  | [] => exact absurd h (natChars_ne_nil n)
  | c :: cs =>
    refine ⟨c, cs, rfl, ?_⟩
    have := natChars_all_digit n
    rw [h] at this
    exact this c (by simp)

theorem stripQuotes_natChars (n : Nat) :
    AuthVerifier.stripQuotes (natChars n) = natChars n := by
  obtain ⟨c, cs, heq, hdig⟩ := natChars_head_digit n
  rw [AuthVerifier.stripQuotes, heq]
  rw [if_neg]
  intro hcond
  have hc : c = '"' := by
    have := hcond.1
    simp only [List.head?] at this
    exact Option.some.inj this
  rw [hc] at hdig
  exact absurd hdig (by decide)

/-- The composer's `Signature-Input` value parses to the fixed component list
and the `created`/`keyid` parameters. -/
theorem parseSignatureInput_composer (now : Nat) :
    AuthVerifier.parseSignatureInput (Crawler.signatureInputValue now) =
      some ⟨"sig1".data,
        ["@method".data, "@target-uri".data, "@authority".data, "@scheme".data,
         "@request-target".data, "created".data],
        [("created".data, natChars now), ("keyid".data, "my-key-id".data)]⟩ := by
  have hshape : Crawler.signatureInputValue now =
      "sig1".data ++ '=' ::
        ('(' :: ("\"@method\" \"@target-uri\" \"@authority\" \"@scheme\" \"@request-target\" \"created\"".data
          ++ ')' :: (';' :: ("created".data ++ '=' ::
            (natChars now ++ (';' :: ("keyid".data ++ '=' ::
              ("\"my-key-id\"".data ++ ([] : Chars)))))))) ) := by
    rw [Crawler.signatureInputValue]
    simp
  rw [hshape, AuthVerifier.parseSignatureInput,
    splitAtFirst_append '=' "sig1".data _ (by decide)]
  try dsimp only
  rw [if_neg (show ¬ ("sig1".data : Chars) = [] by decide), if_pos rfl]
  rw [splitAtFirst_append ')'
    "\"@method\" \"@target-uri\" \"@authority\" \"@scheme\" \"@request-target\" \"created\"".data
    _ (by decide)]
  try dsimp only
  rw [if_neg (by decide)]
  have hdigits : ∀ c ∈ natChars now, c ≠ ';' :=
    fun c hc => (isDigit_excludes c (natChars_all_digit now c hc)).1
  have hdigits_eq : '=' ∉ "created".data → True := fun _ => trivial
  have hparams : scanParams (';' :: ("created".data ++ '=' ::
      (natChars now ++ (';' :: ("keyid".data ++ '=' ::
        ("\"my-key-id\"".data ++ ([] : Chars))))))) =
      [("created".data, natChars now), ("keyid".data, "\"my-key-id\"".data)] := by
    rw [scanParams_cons_param "created".data (natChars now) _
      (by decide) (by decide) (natChars_ne_nil now) hdigits
      (Or.inr ⟨_, rfl⟩)]
    rw [scanParams_cons_param "keyid".data "\"my-key-id\"".data []
      (by decide) (by decide) (by decide) (by decide) (Or.inl rfl)]
    rfl
  rw [hparams]
  have hcomps : splitOnChar ' '
      "\"@method\" \"@target-uri\" \"@authority\" \"@scheme\" \"@request-target\" \"created\"".data =
      ["\"@method\"".data, "\"@target-uri\"".data, "\"@authority\"".data,
       "\"@scheme\"".data, "\"@request-target\"".data, "\"created\"".data] := by decide
  rw [hcomps]
  simp only [List.map, Option.some.injEq, AuthVerifier.SignatureInputParsed.mk.injEq]
  refine ⟨by trivial, by decide, ?_⟩
  rw [stripQuotes_natChars]
  have : AuthVerifier.stripQuotes "\"my-key-id\"".data = "my-key-id".data := by decide
  rw [this]

/-- The composer's `Signature` value parses back to the artifact text. -/
theorem parseSignature_composer (blob : Chars) (hne : blob ≠ [])
    (hcolon : ∀ c ∈ blob, c ≠ ':') :
    AuthVerifier.parseSignature ("sig1=:".data ++ blob ++ [':']) = some blob := by
  have hshape : "sig1=:".data ++ blob ++ [':'] =
      "sig1".data ++ '=' :: (':' :: (blob ++ [':'])) := by simp
  rw [hshape, AuthVerifier.parseSignature,
    splitAtFirst_append '=' "sig1".data _ (by decide)]
  try dsimp only
  rw [if_neg (show ¬ ("sig1".data : Chars) = [] by decide), if_pos rfl]
  have hspan : spanUntil (fun d => d = ':') (blob ++ [':']) = (blob, [':']) := by
    apply spanUntil_append
    · intro x hx
      simp [hcolon x hx]
    · exact Or.inr ⟨':', [], rfl, by simp⟩
  try dsimp only
  rw [hspan]
  try dsimp only
  simp [hne]

/-! ### The verifier pipeline on composer-signed requests -/

/-- Header extraction from the crawler's outgoing header set. -/
theorem extractHeader_requestHeaders_sigInput (sig si : Chars) :
    extractHeader (Crawler.requestHeaders sig si) "signature-input".data = some si := rfl

theorem extractHeader_requestHeaders_sig (sig si : Chars) :
    extractHeader (Crawler.requestHeaders sig si) "signature".data = some sig := rfl

theorem getParam_composer_expires (now : Nat) :
    getParam (composerParams now) "expires".data = none := rfl

theorem getParam_composer_keyid (now : Nat) :
    getParam (composerParams now) "keyid".data = some "my-key-id".data := rfl

theorem expiredCheck_composer (now now2 : Nat) :
    expiredCheck (composerParams now) now2 = false := rfl

theorem signJWT_ne_nil (claims : List (Chars × Chars)) (iat exp : Nat)
    (alg kid priv : Chars) : signJWT claims iat exp alg kid priv ≠ [] := by
  simp [signJWT]

theorem base64EncodeStr_ne_nil (s : Chars) (h : s ≠ []) : base64EncodeStr s ≠ [] := by
  rw [base64EncodeStr]
  apply base64Encode_ne_nil
  simp [strBytes, h]

theorem base64EncodeStr_no_colon (s : Chars) : ∀ c ∈ base64EncodeStr s, c ≠ ':' :=
  fun c hc => (base64Encode_no_colon _ c hc).1

/-- Rebuilding the canonical base never fails on a request whose URL parses,
whatever the header values are. -/
theorem buildSignedData_composer_components (req : RequestLike) (u : UrlObj)
    (hurl : parseURL req.url = some u) (si : Chars) :
    ∃ sd, buildSignedData req composerComponents si = some sd := by
  have hm : componentValue req "@method".data = some (upperStr req.method) := rfl
  have ht : componentValue req "@target-uri".data = some req.url := rfl
  have ha : componentValue req "@authority".data =
      (parseURL req.url).map verifierAuthority := rfl
  have hs2 : componentValue req "@scheme".data =
      (parseURL req.url).map (fun v => v.scheme) := rfl
  have hr : componentValue req "@request-target".data =
      (parseURL req.url).map (fun v => v.pathname ++ v.search) := rfl
  have hc : componentValue req "created".data =
      some ((extractHeader req.headers "created".data).getD []) := rfl
  rw [hurl] at ha hs2 hr
  simp [buildSignedData, buildLines, composerComponents, hm, ht, ha, hs2, hr, hc]

/-- The full verifier pipeline on any request carrying the headers produced by
`Crawler.createSignature(m, url)` at time `now`, presented with any method and
any parsable URL, checked at time `now2`: the outcome is decided solely by the
embedded token's expiry — the rebuilt canonical base is never compared. -/
theorem verifyRequest_composer (m url sig si sm su : Chars) (now now2 : Nat)
    (usig upres : UrlObj) (hsig : parseURL url = some usig)
    (hcs : Crawler.createSignature m url now = some (sig, si))
    (hpres : parseURL su = some upres) :
    verifyRequest ⟨sm, su, Crawler.requestHeaders sig si⟩ now2 =
      if now2 < now + 300 then
        ⟨true, none, some "my-key-id".data, some "Ed25519".data⟩
      else ⟨false, some "Signature verification failed".data, none, none⟩ := by
  rw [Crawler.createSignature, hsig] at hcs
  simp only [Option.some.injEq, Prod.mk.injEq] at hcs
  obtain ⟨hsig_eq, hsi_eq⟩ := hcs
  subst hsig_eq
  subst hsi_eq
  rw [verifyRequest]
  rw [show (RequestLike.mk sm su (Crawler.requestHeaders
    ("sig1=:".data ++ base64EncodeStr (signJWT (Crawler.composerClaims m url usig now)
      now (now + 300) "Ed25519".data Crawler.keyId demoPrivateKey) ++ [':'])
    (Crawler.signatureInputValue now))).headers =
    Crawler.requestHeaders
    ("sig1=:".data ++ base64EncodeStr (signJWT (Crawler.composerClaims m url usig now)
      now (now + 300) "Ed25519".data Crawler.keyId demoPrivateKey) ++ [':'])
    (Crawler.signatureInputValue now) from rfl]
  rw [extractHeader_requestHeaders_sigInput]
  try dsimp only
  rw [extractHeader_requestHeaders_sig]
  try dsimp only
  rw [parseSignatureInput_composer]
  try dsimp only
  rw [parseSignature_composer _
    (base64EncodeStr_ne_nil _ (signJWT_ne_nil _ _ _ _ _ _))
    (base64EncodeStr_no_colon _)]
  try dsimp only
  rw [show expiredCheck [("created".data, natChars now),
    ("keyid".data, "my-key-id".data)] now2 = false from rfl]
  rw [if_neg (by simp)]
  obtain ⟨sd, hsd⟩ := buildSignedData_composer_components
    ⟨sm, su, Crawler.requestHeaders _ _⟩ upres hpres (Crawler.signatureInputValue now)
  rw [show ([ "@method".data, "@target-uri".data, "@authority".data, "@scheme".data,
    "@request-target".data, "created".data] : List Chars) = composerComponents from rfl,
    hsd]
  try dsimp only
  have hblob : jwtVerifyBlob (base64EncodeStr (signJWT (Crawler.composerClaims m url usig now)
      now (now + 300) "Ed25519".data Crawler.keyId demoPrivateKey)) now2 =
      decide (now2 < now + 300) := by
    rw [jwtVerifyBlob, base64DecodeStr_encodeStr _ (signJWT_ascii _ _ _ _ _ _)]
    exact jwtVerify_signJWT _ _ _ _ _ _
  rw [hblob]
  rw [show getParam [("created".data, natChars now),
    ("keyid".data, "my-key-id".data)] "keyid".data = some "my-key-id".data from rfl]
  by_cases hnow : now2 < now + 300
  · rw [if_pos hnow, if_pos (by simpa using hnow)]
  · rw [if_neg hnow, if_neg (by simpa using hnow)]

/-! ### Claim theorems -/

/-- C5: the payment decision engine with ceiling 50.  A non-required offer is
accepted with zero settlement calls.  A required, affordable offer (positive
amount at most the ceiling) triggers exactly one settlement call carrying that
amount, and is accepted exactly when settlement returns a 2xx response — with
the returned transaction id recorded; both an error status and a thrown fetch
reject.  A required offer above the ceiling is rejected with zero settlement
calls. -/
theorem C5_payment_decision (info : Crawler.PaymentInfo)
    (settle : Crawler.SettleOutcome) :
    (info.required = false →
      Crawler.handlePayment info settle = ⟨true, [], none⟩) ∧
    (∀ a, info.required = true → info.amount = some a → 0 < a →
      a ≤ Crawler.maxPayment →
      ((Crawler.handlePayment info settle).calls =
          [⟨a, info.currency, info.description, Crawler.keyId⟩] ∧
        ((Crawler.handlePayment info settle).granted = true ↔
          ∃ tx, settle = Crawler.SettleOutcome.ok tx) ∧
        (∀ tx, settle = Crawler.SettleOutcome.ok (some tx) →
          (Crawler.handlePayment info settle).loggedTx = some tx))) ∧
    (∀ a, info.required = true → info.amount = some a →
      Crawler.maxPayment < a →
      Crawler.handlePayment info settle = ⟨false, [], none⟩) := by
  have h50 : Crawler.maxPayment = 50 := rfl
  refine ⟨?_, ?_, ?_⟩
  · intro h
    simp [Crawler.handlePayment, h]
  · intro a hreq ha hpos hle
    rw [h50] at hle
    rw [Crawler.handlePayment, hreq]
    simp only [Bool.not_true, Bool.false_eq_true, if_false, ha]
    rw [if_pos (show (decide (a ≠ 0) && decide (a ≤ Crawler.maxPayment)) = true by
      rw [h50]
      simp only [Bool.and_eq_true, decide_eq_true_eq]
      omega)]
    cases settle with
    | ok tx =>
      refine ⟨rfl, ⟨fun _ => ⟨tx, rfl⟩, fun _ => rfl⟩, ?_⟩
      intro tx2 htx
      simp only [Crawler.SettleOutcome.ok.injEq] at htx
      simp [htx]
    | httpError st =>
      refine ⟨rfl, ⟨?_, ?_⟩, ?_⟩
      · intro h
        exact absurd h (by simp)
      · rintro ⟨tx, htx⟩
        exact absurd htx (by simp)
      · intro tx htx
        exact absurd htx (by simp)
    | networkError =>
      refine ⟨rfl, ⟨?_, ?_⟩, ?_⟩
      · intro h
        exact absurd h (by simp)
      · rintro ⟨tx, htx⟩
        exact absurd htx (by simp)
      · intro tx htx
        exact absurd htx (by simp)
  · intro a hreq ha hgt
    rw [h50] at hgt
    rw [Crawler.handlePayment, hreq]
    simp only [Bool.not_true, Bool.false_eq_true, if_false, ha]
    rw [if_neg (show ¬ (decide (a ≠ 0) && decide (a ≤ Crawler.maxPayment)) = true by
      rw [h50]
      simp only [Bool.and_eq_true, decide_eq_true_eq]
      rintro ⟨-, h2⟩
      omega)]

/-- C5 witness: a concrete affordable offer with a successful settlement. -/
theorem C5_payment_decision_witness :
    (Crawler.handlePayment ⟨true, some 10, some "USD".data, none⟩
        (Crawler.SettleOutcome.ok (some "tx_1".data))).calls =
      [⟨10, some "USD".data, none, Crawler.keyId⟩] ∧
    (Crawler.handlePayment ⟨true, some 10, some "USD".data, none⟩
        (Crawler.SettleOutcome.ok (some "tx_1".data))).loggedTx = some "tx_1".data := by
  have h := (C5_payment_decision ⟨true, some 10, some "USD".data, none⟩
    (Crawler.SettleOutcome.ok (some "tx_1".data))).2.1 10
    (by decide) (by decide) (by decide) (by decide)
  exact ⟨h.1, h.2.2 "tx_1".data rfl⟩

/-- C6 counterexample: a transport failure on the first listed resource ends
the crawl loop — the second (perfectly processable) resource produces no
record at all, contradicting the claim that every subsequent resource is
still fetched and decided. -/
theorem C6_transport_error_aborts_rest :
    Crawler.crawlPatterns
      (Crawler.FetchOutcome.ok ⟨false, none, none, none⟩
        Crawler.SettleOutcome.networkError)
      [Crawler.FetchOutcome.transportError,
       Crawler.FetchOutcome.ok ⟨false, none, none, none⟩
         Crawler.SettleOutcome.networkError] = ([], true) := rfl

/-- C6 amended: an HTTP-level failure (non-ok status) on one resource does not
abort the remaining resources, and neither does an ok response whatever its
payment outcome; but a thrown transport error ends the loop at once — the
remaining resources are neither fetched nor decided, and only the top-level
catch sees the error. -/
theorem C6_loop_isolation_shape :
    (∀ s rest, Crawler.crawlLoop (Crawler.FetchOutcome.httpError s :: rest) =
      (Crawler.PatternResult.requestFailed s :: (Crawler.crawlLoop rest).1,
        (Crawler.crawlLoop rest).2)) ∧
    (∀ info settle rest,
      Crawler.crawlLoop (Crawler.FetchOutcome.ok info settle :: rest) =
      ((if (Crawler.handlePayment info settle).granted
          then Crawler.PatternResult.accessGranted
          else Crawler.PatternResult.accessDenied) :: (Crawler.crawlLoop rest).1,
        (Crawler.crawlLoop rest).2)) ∧
    (∀ rest, Crawler.crawlLoop (Crawler.FetchOutcome.transportError :: rest) =
      ([], true)) :=
  ⟨fun _ _ => rfl, fun _ _ _ => rfl, fun _ => rfl⟩

/-- C8 counterexample: two consecutive successful settlements processed in the
same millisecond receive the same `tx_<Date.now()>` transaction id — the ids
are not pairwise distinct. -/
theorem C8_same_millisecond_collision :
    (PaymentServer.paymentProcess (some ⟨some 10, none, none, none⟩)
        1700000000000).success = true ∧
    (PaymentServer.paymentProcess (some ⟨some 25, none, none, none⟩)
        1700000000000).success = true ∧
    (PaymentServer.paymentProcess (some ⟨some 10, none, none, none⟩)
        1700000000000).transactionId =
      (PaymentServer.paymentProcess (some ⟨some 25, none, none, none⟩)
        1700000000000).transactionId :=
  ⟨rfl, rfl, rfl⟩

/-- C8 amended: transaction ids are injective in the millisecond clock, so any
run of successful settlements whose `Date.now()` readings are pairwise
distinct yields pairwise distinct ids; ids collide exactly when the clock
reading repeats. -/
theorem C8_distinct_times_distinct_ids
    (calls : List (PaymentServer.PaymentRequestBody × Nat))
    (hts : (calls.map (fun c => c.2)).Pairwise (· ≠ ·)) :
    (calls.map (fun c =>
      (PaymentServer.paymentProcess (some c.1) c.2).transactionId)).Pairwise
      (· ≠ ·) := by
  rw [List.pairwise_map] at hts ⊢
  refine hts.imp ?_
  intro a b hne heq
  apply hne
  simp only [PaymentServer.paymentProcess, Option.some.injEq] at heq
  exact natChars_injective (List.append_cancel_left heq)

/-- C8 amended witness: two settlements one millisecond apart. -/
theorem C8_distinct_times_distinct_ids_witness :
    ((([(⟨some 10, none, none, none⟩, 1700000000000),
        (⟨some 25, none, none, none⟩, 1700000000001)] :
        List (PaymentServer.PaymentRequestBody × Nat)).map
          (fun c => c.2)).Pairwise (· ≠ ·)) ∧
    ((([(⟨some 10, none, none, none⟩, 1700000000000),
        (⟨some 25, none, none, none⟩, 1700000000001)] :
        List (PaymentServer.PaymentRequestBody × Nat)).map (fun c =>
      (PaymentServer.paymentProcess (some c.1) c.2).transactionId)).Pairwise
      (· ≠ ·)) :=
  ⟨by decide, C8_distinct_times_distinct_ids _ (by decide)⟩

/-- C3 counterexample: the declaration declares `created=1710000000`, the
request carries a `created` header with value `999`, and the rebuilt base's
created line carries the header's `999` — the verifier does not use the
declared value. -/
theorem C3_created_counterexample :
    (AuthVerifier.parseSignatureInput "sig1=(\"created\");created=1710000000".data).map
      (fun p => AuthVerifier.getParam p.parameters "created".data) =
      some (some "1710000000".data) ∧
    AuthVerifier.buildSignedData
      ⟨"GET".data, "http://h/".data, [("created".data, "999".data)]⟩
      ["created".data] "sig1=(\"created\");created=1710000000".data =
      some "\"created\": 999\n\"@signature-params\": sig1=(\"created\");created=1710000000".data ∧
    ("999".data : Chars) ≠ "1710000000".data := by
  refine ⟨by decide, by decide, by decide⟩

/-- C3 amended: the value the verifier uses for the `created` component is the
request's own `created` header (the empty string when that header is absent);
the `created` parameter declared in `Signature-Input` is not consulted for it,
and it is never recomputed from the current time (`buildSignedData` takes no
clock input). -/
theorem C3_created_from_request_header (req : RequestLike) (hv si : Chars)
    (h : AuthVerifier.extractHeader req.headers "created".data = some hv) :
    AuthVerifier.buildSignedData req ["created".data] si =
      some ("\"created\": ".data ++ hv ++ '\n' ::
        ("\"@signature-params\": ".data ++ si)) := by
  have hc : AuthVerifier.componentValue req "created".data = some hv := by
    rw [show AuthVerifier.componentValue req "created".data =
      some ((AuthVerifier.extractHeader req.headers "created".data).getD [])
      from rfl, h]
    rfl
  simp only [AuthVerifier.buildSignedData, AuthVerifier.buildLines, hc]
  rw [show List.intercalate ['\n']
      ([('"' :: lowerStr "created".data ++ "\": ".data ++ hv)] ++
        ['"' :: "@signature-params".data ++ "\": ".data ++ si]) =
      ('"' :: lowerStr "created".data ++ "\": ".data ++ hv) ++ '\n' ::
        ('"' :: "@signature-params".data ++ "\": ".data ++ si) from by
    simp [List.intercalate]]
  simp [lowerStr]

/-- C3 amended witness: concrete request with a created header. -/
theorem C3_created_from_request_header_witness :
    AuthVerifier.extractHeader [("created".data, "999".data)] "created".data =
      some "999".data ∧
    AuthVerifier.buildSignedData
      ⟨"GET".data, "http://h/".data, [("created".data, "999".data)]⟩
      ["created".data] "sigtext".data =
      some ("\"created\": ".data ++ "999".data ++ '\n' ::
        ("\"@signature-params\": ".data ++ "sigtext".data)) :=
  ⟨by decide, C3_created_from_request_header
    ⟨"GET".data, "http://h/".data, [("created".data, "999".data)]⟩
    "999".data "sigtext".data (by decide)⟩

/-- C4 counterexample: for `http://localhost:443/` the composer signs
`@authority` as `localhost:443` (`url.host`, WHATWG keeps 443 because it is
not the http default) while the verifier rebuilds `localhost` (it suppresses
80 and 443 regardless of scheme) — the two sides disagree. -/
theorem C4_authority_mismatch :
    (parseURL "http://localhost:443/".data).map UrlObj.host =
      some "localhost:443".data ∧
    (parseURL "http://localhost:443/".data).map AuthVerifier.verifierAuthority =
      some "localhost".data ∧
    ("localhost:443".data : Chars) ≠ "localhost".data := by
  refine ⟨by decide, by decide, by decide⟩

/-- C4 amended: for a URL that parses, the composer's `@authority`
(`url.host`) and the verifier's rebuilt `@authority` agree exactly when the
URL carries no explicit non-default port, or its explicit port is none of 0,
80 and 443; they disagree whenever a non-default port 80 or 443 survives
parsing (e.g. `http://host:443`, `https://host:80`) or the port is 0. -/
theorem C4_authority_agreement_iff (s : Chars) (u : UrlObj)
    (h : parseURL s = some u) :
    UrlObj.host u = AuthVerifier.verifierAuthority u ↔
      (u.port = none ∨ ∃ p, u.port = some p ∧ p ≠ 0 ∧ p ≠ 80 ∧ p ≠ 443) := by
  cases hp : u.port with
  | none =>
    simp [UrlObj.host, AuthVerifier.verifierAuthority, hp]
  | some p =>
    rw [UrlObj.host, AuthVerifier.verifierAuthority, hp]
    dsimp only
    by_cases hc : p ≠ 0 ∧ p ≠ 80 ∧ p ≠ 443
    · rw [if_pos hc]
      simp only [iff_true_intro rfl, true_iff]
      exact Or.inr ⟨p, rfl, hc.1, hc.2.1, hc.2.2⟩
    · rw [if_neg hc]
      constructor
      · intro heq
        have : (u.hostname ++ ':' :: natChars p).length = u.hostname.length := by
          rw [heq]
        simp only [List.length_append, List.length_cons] at this
        omega
      · rintro (hnone | ⟨q, hq, hq0, hq80, hq443⟩)
        · simp at hnone
        · simp only [Option.some.injEq] at hq
          exact absurd ⟨by omega, by omega, by omega⟩ hc

/-- C4 amended witness: a URL with an ordinary explicit port, where the two
sides agree. -/
theorem C4_authority_agreement_iff_witness :
    parseURL "http://h:8080/x".data =
      some ⟨"http".data, "h".data, some 8080, "/x".data, []⟩ ∧
    (UrlObj.host ⟨"http".data, "h".data, some 8080, "/x".data, []⟩ =
      AuthVerifier.verifierAuthority ⟨"http".data, "h".data, some 8080, "/x".data, []⟩ ↔
      ((⟨"http".data, "h".data, some 8080, "/x".data, []⟩ : UrlObj).port = none ∨
        ∃ p, (⟨"http".data, "h".data, some 8080, "/x".data, []⟩ : UrlObj).port = some p ∧
          p ≠ 0 ∧ p ≠ 80 ∧ p ≠ 443)) :=
  ⟨by decide, C4_authority_agreement_iff "http://h:8080/x".data
    ⟨"http".data, "h".data, some 8080, "/x".data, []⟩ (by decide)⟩

/-- C2: a request signed by `Crawler.createSignature` with the demo key pair
(key id `my-key-id`, algorithm Ed25519) and presented unmodified to
`AuthVerifier.verifyRequest` before the five-minute token validity elapses is
accepted, with the result's `keyId` and `algorithm` matching the signing key.
-/
theorem C2_composer_verifier_roundtrip (m url sig si : Chars) (now now2 : Nat)
    (u : UrlObj) (hurl : parseURL url = some u)
    (hcs : Crawler.createSignature m url now = some (sig, si))
    (hfresh : now2 < now + 300) :
    AuthVerifier.verifyRequest ⟨m, url, Crawler.requestHeaders sig si⟩ now2 =
      ⟨true, none, some "my-key-id".data, some "Ed25519".data⟩ := by
  rw [verifyRequest_composer m url sig si m url now now2 u u hurl hcs hurl,
    if_pos hfresh]

/-- C2 witness: GET http://h/ signed at time 5 and verified at time 9. -/
theorem C2_composer_verifier_roundtrip_witness :
    AuthVerifier.verifyRequest ⟨"GET".data, "http://h/".data,
      Crawler.requestHeaders
        ((Crawler.createSignature "GET".data "http://h/".data 5).getD ([], [])).1
        ((Crawler.createSignature "GET".data "http://h/".data 5).getD ([], [])).2⟩ 9 =
      ⟨true, none, some "my-key-id".data, some "Ed25519".data⟩ :=
  C2_composer_verifier_roundtrip "GET".data "http://h/".data _ _ 5 9
    ⟨"http".data, "h".data, none, "/".data, []⟩ (by decide) (by decide) (by decide)

/-- C1, evaluated at the failing input: the crawler signs GET http://h/ at
time 5; the request is then presented with its method altered to POST (a
covered component) without re-signing — and the verifier still accepts.  The
canonical base rebuilt by `buildSignedData` is never compared against the
artifact (the `signedData` local of `verifyRequest` is dead), so altering a
covered component does not produce `VerificationFailed`. -/
theorem C1_tampered_covered_component_still_valid :
    AuthVerifier.verifyRequest ⟨"POST".data, "http://h/".data,
      Crawler.requestHeaders
        ((Crawler.createSignature "GET".data "http://h/".data 5).getD ([], [])).1
        ((Crawler.createSignature "GET".data "http://h/".data 5).getD ([], [])).2⟩ 5 =
      ⟨true, none, some "my-key-id".data, some "Ed25519".data⟩ := by
  rw [verifyRequest_composer "GET".data "http://h/".data _ _ "POST".data
    "http://h/".data 5 5
    ⟨"http".data, "h".data, none, "/".data, []⟩
    ⟨"http".data, "h".data, none, "/".data, []⟩
    (by decide) (by decide) (by decide), if_pos (by decide)]

/-- C7 counterexample: the composer's declaration carries no `expires`
parameter, yet the very same request is accepted at time 5 and rejected at
time 305: the embedded token's own expiry is still enforced inside the
cryptographic check, so with `expires` absent an expiry check is performed
all the same and the outcome depends on the current time. -/
theorem C7_no_expires_still_time_dependent :
    AuthVerifier.parseSignatureInput (Crawler.signatureInputValue 5) =
      some ⟨"sig1".data, composerComponents,
        [("created".data, natChars 5), ("keyid".data, "my-key-id".data)]⟩ ∧
    AuthVerifier.getParam
      [("created".data, natChars 5), ("keyid".data, "my-key-id".data)]
      "expires".data = none ∧
    AuthVerifier.verifyRequest ⟨"GET".data, "http://h/".data,
      Crawler.requestHeaders
        ((Crawler.createSignature "GET".data "http://h/".data 5).getD ([], [])).1
        ((Crawler.createSignature "GET".data "http://h/".data 5).getD ([], [])).2⟩ 5 =
      ⟨true, none, some "my-key-id".data, some "Ed25519".data⟩ ∧
    AuthVerifier.verifyRequest ⟨"GET".data, "http://h/".data,
      Crawler.requestHeaders
        ((Crawler.createSignature "GET".data "http://h/".data 5).getD ([], [])).1
        ((Crawler.createSignature "GET".data "http://h/".data 5).getD ([], [])).2⟩ 305 =
      ⟨false, some "Signature verification failed".data, none, none⟩ := by
  refine ⟨parseSignatureInput_composer 5, rfl, ?_, ?_⟩
  · rw [verifyRequest_composer "GET".data "http://h/".data _ _ "GET".data
      "http://h/".data 5 5
      ⟨"http".data, "h".data, none, "/".data, []⟩
      ⟨"http".data, "h".data, none, "/".data, []⟩
      (by decide) (by decide) (by decide), if_pos (by decide)]
  · rw [verifyRequest_composer "GET".data "http://h/".data _ _ "GET".data
      "http://h/".data 5 305
      ⟨"http".data, "h".data, none, "/".data, []⟩
      ⟨"http".data, "h".data, none, "/".data, []⟩
      (by decide) (by decide) (by decide), if_neg (by decide)]

/-- C7 amended, part 1 and 2: a declared `expires` in the past short-circuits
to `Signature expired` whatever the signature artifact contains (no
cryptographic check decides it), while an absent `expires` makes the
`Signature expired` outcome impossible — the declaration-level check is
skipped (the embedded token's own expiry may still fail the cryptographic
step, see the counterexample). -/
theorem C7_declared_expiry_behaviour (req : RequestLike) (now : Nat)
    (si sg : Chars) (parsed : AuthVerifier.SignatureInputParsed)
    (hsi : AuthVerifier.extractHeader req.headers "signature-input".data = some si)
    (hsg : AuthVerifier.extractHeader req.headers "signature".data = some sg)
    (hparse : AuthVerifier.parseSignatureInput si = some parsed) :
    (∀ e blob, AuthVerifier.getParam parsed.parameters "expires".data =
        some (natChars e) → e < now →
      AuthVerifier.parseSignature sg = some blob →
      AuthVerifier.verifyRequest req now =
        ⟨false, some "Signature expired".data, none, none⟩) ∧
    (AuthVerifier.getParam parsed.parameters "expires".data = none →
      (AuthVerifier.verifyRequest req now).error ≠ some "Signature expired".data) := by
  constructor
  · intro e blob hexp hlt hblob
    rw [AuthVerifier.verifyRequest, hsi]
    try dsimp only
    rw [hsg]
    try dsimp only
    rw [hparse]
    try dsimp only
    rw [hblob]
    try dsimp only
    have hchk : AuthVerifier.expiredCheck parsed.parameters now = true := by
      rw [AuthVerifier.expiredCheck, hexp]
      try dsimp only
      rw [if_neg (natChars_ne_nil e)]
      have hint : parseIntJS (natChars e) = some (e : Int) := by
        have := parseIntJS_natChars_append e [] (Or.inl rfl)
        simpa using this
      rw [hint]
      try dsimp only
      simp only [decide_eq_true_eq]
      exact_mod_cast hlt
    rw [hchk, if_pos rfl]
  · intro hnone
    rw [AuthVerifier.verifyRequest, hsi]
    try dsimp only
    rw [hsg]
    try dsimp only
    rw [hparse]
    try dsimp only
    have hchk : AuthVerifier.expiredCheck parsed.parameters now = false := by
      rw [AuthVerifier.expiredCheck, hnone]
    cases hps : AuthVerifier.parseSignature sg with
    | none =>
      try dsimp only
      simp [AuthVerifier.verificationErrorResult]
    | some blob =>
      try dsimp only
      rw [hchk]
      rw [if_neg (by simp)]
      cases hbs : AuthVerifier.buildSignedData req parsed.components si with
      | none =>
        try dsimp only
        simp [AuthVerifier.verificationErrorResult]
      | some sd =>
        try dsimp only
        by_cases hjv : AuthVerifier.jwtVerifyBlob blob now = true
        · rw [if_pos hjv]
          simp
        · rw [if_neg hjv]
          simp only [Option.some.injEq, ne_eq]
          decide

/-- C7 amended witness: a declaration with `expires=1` checked at time 5. -/
theorem C7_declared_expiry_behaviour_witness :
    AuthVerifier.verifyRequest
      ⟨"GET".data, "http://h/".data,
        [("Signature-Input".data, "sig1=(\"@method\");created=1;expires=1".data),
         ("Signature".data, "sig1=:AAAA:".data)]⟩ 5 =
      ⟨false, some "Signature expired".data, none, none⟩ :=
  (C7_declared_expiry_behaviour
    ⟨"GET".data, "http://h/".data,
      [("Signature-Input".data, "sig1=(\"@method\");created=1;expires=1".data),
       ("Signature".data, "sig1=:AAAA:".data)]⟩ 5
    "sig1=(\"@method\");created=1;expires=1".data "sig1=:AAAA:".data
    ⟨"sig1".data, ["@method".data],
      [("created".data, "1".data), ("expires".data, "1".data)]⟩
    (by decide) (by decide) (by decide)).1 1 "AAAA".data (by decide) (by decide)
    (by decide)

/-- C9 amended: `verifyRequest` is total by construction (every exception path
of the source ends in a catch that returns a result); every invalid result
carries an error string; every valid result carries algorithm Ed25519 and no
error — but the keyId field merely echoes the declared keyid parameter and is
absent when the declaration omitted it (see the counterexample). -/
theorem C9_result_shape (req : RequestLike) (now : Nat) :
    ((AuthVerifier.verifyRequest req now).isValid = false →
      (AuthVerifier.verifyRequest req now).error.isSome = true) ∧
    ((AuthVerifier.verifyRequest req now).isValid = true →
      (AuthVerifier.verifyRequest req now).algorithm = some "Ed25519".data ∧
      (AuthVerifier.verifyRequest req now).error = none) := by
  constructor <;>
    · rw [AuthVerifier.verifyRequest]
      repeat' split
      all_goals intro h
      all_goals
        first
          | rfl
          | exact ⟨rfl, rfl⟩
          | exact nomatch h

/-- C9 witness: the shape facts at a concrete unauthenticated request. -/
theorem C9_result_shape_witness :
    (AuthVerifier.verifyRequest ⟨"GET".data, "http://h/".data, []⟩ 0).isValid =
      false ∧
    (AuthVerifier.verifyRequest ⟨"GET".data, "http://h/".data, []⟩ 0).error.isSome =
      true :=
  ⟨by decide, (C9_result_shape ⟨"GET".data, "http://h/".data, []⟩ 0).1 (by decide)⟩

/-- C9 counterexample: a valid result that carries no keyId — the request's
declaration omits the keyid parameter but its artifact is a genuine token
under the static key, so verification succeeds with `keyId = none`, refuting
"isValid=true results always carry keyId". -/
theorem C9_valid_without_keyid :
    AuthVerifier.verifyRequest
      ⟨"GET".data, "http://h/".data,
        [("Signature-Input".data, "sig1=(\"@method\");created=5".data),
         ("Signature".data,
           "sig1=:".data ++
             base64EncodeStr (signJWT [] 0 1000 "Ed25519".data "k".data
               demoPrivateKey) ++ [':'])]⟩ 5 =
      ⟨true, none, none, some "Ed25519".data⟩ := by decide

theorem componentValue_isSome_congr (req1 req2 : RequestLike)
    (hu : req1.url = req2.url) (comp : Chars) :
    (AuthVerifier.componentValue req1 comp).isSome =
      (AuthVerifier.componentValue req2 comp).isSome := by
  rw [AuthVerifier.componentValue, AuthVerifier.componentValue, hu]
  by_cases h1 : comp = "@method".data
  · rw [if_pos h1, if_pos h1]
    rfl
  rw [if_neg h1, if_neg h1]
  by_cases h2 : comp = "@target-uri".data
  · rw [if_pos h2, if_pos h2]
  rw [if_neg h2, if_neg h2]
  by_cases h3 : comp = "@authority".data
  · rw [if_pos h3, if_pos h3]
  rw [if_neg h3, if_neg h3]
  by_cases h4 : comp = "@scheme".data
  · rw [if_pos h4, if_pos h4]
  rw [if_neg h4, if_neg h4]
  by_cases h5 : comp = "@request-target".data
  · rw [if_pos h5, if_pos h5]
  rw [if_neg h5, if_neg h5]
  by_cases h6 : comp = "created".data
  · rw [if_pos h6, if_pos h6]
    rfl
  rw [if_neg h6, if_neg h6]
  rfl

theorem buildLines_isSome_congr (req1 req2 : RequestLike)
    (hu : req1.url = req2.url) :
    ∀ comps, (AuthVerifier.buildLines req1 comps).isSome =
      (AuthVerifier.buildLines req2 comps).isSome := by
  intro comps
  induction comps with
  | nil => rfl
  | cons comp rest ih =>
    rw [AuthVerifier.buildLines, AuthVerifier.buildLines]
    have hcv := componentValue_isSome_congr req1 req2 hu comp
    cases hc1 : AuthVerifier.componentValue req1 comp with
    | none =>
      rw [hc1] at hcv
      cases hc2 : AuthVerifier.componentValue req2 comp with
      | none => rfl
      | some v2 => rw [hc2] at hcv; exact absurd hcv (by simp)
    | some v1 =>
      rw [hc1] at hcv
      cases hc2 : AuthVerifier.componentValue req2 comp with
      | none => rw [hc2] at hcv; exact absurd hcv (by simp)
      | some v2 =>
        try dsimp only
        cases hb1 : AuthVerifier.buildLines req1 rest with
        | none =>
          rw [hb1] at ih
          cases hb2 : AuthVerifier.buildLines req2 rest with
          | none => rfl
          | some ls2 => rw [hb2] at ih; exact absurd ih (by simp)
        | some ls1 =>
          rw [hb1] at ih
          cases hb2 : AuthVerifier.buildLines req2 rest with
          | none => rw [hb2] at ih; exact absurd ih (by simp)
          | some ls2 => rfl

theorem buildSignedData_isSome (req : RequestLike) (comps : List Chars)
    (si : Chars) :
    (AuthVerifier.buildSignedData req comps si).isSome =
      (AuthVerifier.buildLines req comps).isSome := by
  rw [AuthVerifier.buildSignedData]
  cases AuthVerifier.buildLines req comps <;> rfl

/-- C10: two requests that differ only in the keyid parameter of their parsed
`Signature-Input` declaration verify identically (the same static public key
is used regardless of the declared keyid), and on success each result's keyId
field is its own declared keyid echoed verbatim, never checked against the
key that verified the signature. -/
theorem C10_keyid_echoed_not_checked (m u si1 si2 : Chars)
    (hs : List (Chars × Chars)) (p1 p2 : AuthVerifier.SignatureInputParsed)
    (now : Nat)
    (h1 : AuthVerifier.parseSignatureInput si1 = some p1)
    (h2 : AuthVerifier.parseSignatureInput si2 = some p2)
    (hcomps : p1.components = p2.components)
    (hparams : ∀ name, name ≠ "keyid".data →
      AuthVerifier.getParam p1.parameters name =
        AuthVerifier.getParam p2.parameters name) :
    (AuthVerifier.verifyRequest ⟨m, u, ("Signature-Input".data, si1) :: hs⟩ now).isValid =
      (AuthVerifier.verifyRequest ⟨m, u, ("Signature-Input".data, si2) :: hs⟩ now).isValid ∧
    (AuthVerifier.verifyRequest ⟨m, u, ("Signature-Input".data, si1) :: hs⟩ now).error =
      (AuthVerifier.verifyRequest ⟨m, u, ("Signature-Input".data, si2) :: hs⟩ now).error ∧
    ((AuthVerifier.verifyRequest ⟨m, u, ("Signature-Input".data, si1) :: hs⟩ now).isValid = true →
      (AuthVerifier.verifyRequest ⟨m, u, ("Signature-Input".data, si1) :: hs⟩ now).keyId =
        AuthVerifier.getParam p1.parameters "keyid".data ∧
      (AuthVerifier.verifyRequest ⟨m, u, ("Signature-Input".data, si2) :: hs⟩ now).keyId =
        AuthVerifier.getParam p2.parameters "keyid".data) := by
  have hex1 : AuthVerifier.extractHeader (("Signature-Input".data, si1) :: hs)
      "signature-input".data = some si1 := rfl
  have hex2 : AuthVerifier.extractHeader (("Signature-Input".data, si2) :: hs)
      "signature-input".data = some si2 := rfl
  have hsg1 : AuthVerifier.extractHeader (("Signature-Input".data, si1) :: hs)
      "signature".data = AuthVerifier.extractHeader hs "signature".data := rfl
  have hsg2 : AuthVerifier.extractHeader (("Signature-Input".data, si2) :: hs)
      "signature".data = AuthVerifier.extractHeader hs "signature".data := rfl
  rw [AuthVerifier.verifyRequest, AuthVerifier.verifyRequest]
  rw [show (⟨m, u, ("Signature-Input".data, si1) :: hs⟩ : RequestLike).headers =
    ("Signature-Input".data, si1) :: hs from rfl]
  rw [show (⟨m, u, ("Signature-Input".data, si2) :: hs⟩ : RequestLike).headers =
    ("Signature-Input".data, si2) :: hs from rfl]
  rw [hex1, hex2]
  try dsimp only
  rw [hsg1, hsg2]
  cases hsg : AuthVerifier.extractHeader hs "signature".data with
  | none => exact ⟨rfl, rfl, fun h => nomatch h⟩
  | some sg =>
    try dsimp only
    rw [h1, h2]
    try dsimp only
    cases hps : AuthVerifier.parseSignature sg with
    | none => exact ⟨rfl, rfl, fun h => nomatch h⟩
    | some blob =>
      try dsimp only
      have hec : AuthVerifier.expiredCheck p1.parameters now =
          AuthVerifier.expiredCheck p2.parameters now := by
        rw [AuthVerifier.expiredCheck, AuthVerifier.expiredCheck,
          hparams "expires".data (by decide)]
      rw [← hec]
      by_cases he : AuthVerifier.expiredCheck p1.parameters now = true
      · simp only [if_pos he]
        simp
      · simp only [if_neg he]
        have hbs : (AuthVerifier.buildSignedData
            ⟨m, u, ("Signature-Input".data, si1) :: hs⟩ p1.components si1).isSome =
            (AuthVerifier.buildSignedData
            ⟨m, u, ("Signature-Input".data, si2) :: hs⟩ p2.components si2).isSome := by
          rw [buildSignedData_isSome, buildSignedData_isSome, hcomps,
            buildLines_isSome_congr
              ⟨m, u, ("Signature-Input".data, si1) :: hs⟩
              ⟨m, u, ("Signature-Input".data, si2) :: hs⟩ rfl]
        cases hb1 : AuthVerifier.buildSignedData
            ⟨m, u, ("Signature-Input".data, si1) :: hs⟩ p1.components si1 with
        | none =>
          rw [hb1] at hbs
          cases hb2 : AuthVerifier.buildSignedData
              ⟨m, u, ("Signature-Input".data, si2) :: hs⟩ p2.components si2 with
          | none =>
            try dsimp only
            exact ⟨rfl, rfl, fun h => nomatch h⟩
          | some sd2 => rw [hb2] at hbs; exact absurd hbs (by simp)
        | some sd1 =>
          rw [hb1] at hbs
          cases hb2 : AuthVerifier.buildSignedData
              ⟨m, u, ("Signature-Input".data, si2) :: hs⟩ p2.components si2 with
          | none => rw [hb2] at hbs; exact absurd hbs (by simp)
          | some sd2 =>
            try dsimp only
            by_cases hjv : AuthVerifier.jwtVerifyBlob blob now = true
            · simp only [if_pos hjv]
              simp
            · simp only [if_neg hjv]
              simp

/-- C10 witness: two declarations differing only in keyid (`k1` vs `k2`). -/
theorem C10_keyid_echoed_not_checked_witness :
    (AuthVerifier.verifyRequest ⟨"GET".data, "http://h/".data,
      [("Signature-Input".data, "sig1=(\"@method\");created=1;keyid=\"k1\"".data)]⟩ 0).isValid =
    (AuthVerifier.verifyRequest ⟨"GET".data, "http://h/".data,
      [("Signature-Input".data, "sig1=(\"@method\");created=1;keyid=\"k2\"".data)]⟩ 0).isValid :=
  (C10_keyid_echoed_not_checked "GET".data "http://h/".data
    "sig1=(\"@method\");created=1;keyid=\"k1\"".data
    "sig1=(\"@method\");created=1;keyid=\"k2\"".data
    [] ⟨"sig1".data, ["@method".data],
        [("created".data, "1".data), ("keyid".data, "k1".data)]⟩
    ⟨"sig1".data, ["@method".data],
        [("created".data, "1".data), ("keyid".data, "k2".data)]⟩
    0 (by decide) (by decide) rfl
    (by
      intro name hne
      have hk : ¬ (("keyid".data : Chars) = name) := fun hkk => hne hkk.symm
      show (match (if ("keyid".data : Chars) = name then some "k1".data
          else none : Option Chars) with
        | some r => some r
        | none => if ("created".data : Chars) = name then some "1".data else none) =
        (match (if ("keyid".data : Chars) = name then some "k2".data
          else none : Option Chars) with
        | some r => some r
        | none => if ("created".data : Chars) = name then some "1".data else none)
      rw [if_neg hk]
      rw [if_neg hk])).1

end WbaDemo
